import Mathlib

set_option maxRecDepth 100000

/-!
Verification development for a pedagogical proof-of-work blockchain node
(TypeScript sources: `block.mts`, `infra/node/node.mts`,
`domain/transaction/transaction.mts`, `util/common.mts`, `util/crypto.mts`).

The embedding is shallow: byte arrays (`Uint8Array`) become `List Nat` with
values below 256, JavaScript numbers holding integers become `Nat` (or `Int`
where a subtraction can go negative), fallible code returns `Except String`,
and the mutable node object becomes an explicit `NodeState` record threaded
through the functions that the source mutates.  Hash keys: the source keys
its maps by `hex(hash)`; `hex` is injective on byte arrays, so the model
keys maps by the hash bytes themselves.

Module layout:
1. byte helpers and an executable SHA-256 (the node hashes with
   `crypto.createHash('sha256')`);
2. the transaction/block codec (`Input`, `Output`, `Transaction`, `Block`);
3. the node's validation and sync functions
   (`getExpectedDifficulty`, `validateDifficulty`,
   `validateNewBlocksAndUpdateUTxOuts`, `onNewBlocks` commit);
4. theorems settling the claims, with concrete witnesses.
-/

namespace Blockchain

/-- Byte strings (`Uint8Array`) are lists of naturals; well-formed values are
below 256. -/
abbrev Bytes := List Nat

/-- Big-endian 32-bit encoding of a natural (DataView.setUint32 semantics:
the argument is reduced mod 2^32 by the caller where the source can
overflow). -/
def be32 (n : Nat) : Bytes :=
  [n / 16777216 % 256, n / 65536 % 256, n / 256 % 256, n % 256]

/-- Big-endian 64-bit encoding (DataView.setBigUint64 semantics). -/
def be64 (n : Nat) : Bytes :=
  [n / 72057594037927936 % 256, n / 281474976710656 % 256,
   n / 1099511627776 % 256, n / 4294967296 % 256,
   n / 16777216 % 256, n / 65536 % 256, n / 256 % 256, n % 256]

/-- Big-endian 32-bit read of the first four bytes, `none` when fewer than
four bytes are available (DataView.getUint32 throws a RangeError there). -/
def u32At : Bytes → Option Nat
  | a :: b :: c :: d :: _ => some (((a * 256 + b) * 256 + c) * 256 + d)
  | _ => none

/-- Big-endian 64-bit read of the first eight bytes. -/
def u64At : Bytes → Option Nat
  | a :: b :: c :: d :: e :: f :: g :: h :: _ =>
      some (((((((a * 256 + b) * 256 + c) * 256 + d) * 256 + e) * 256 + f)
        * 256 + g) * 256 + h)
  | _ => none

/-! ## SHA-256

Executable SHA-256 over byte lists, standard FIPS 180-4 description: 32-bit
words are naturals reduced mod 2^32. -/

/-- Truncate to a 32-bit word. -/
def w32 (n : Nat) : Nat := n % 4294967296

/-- Right rotation of a 32-bit word. -/
def rotr (n x : Nat) : Nat :=
  w32 ((x >>> n) + ((x % (2 ^ n)) <<< (32 - n)))

/-- Bitwise complement within 32 bits. -/
def not32 (x : Nat) : Nat := 4294967295 - x

/-- The sixty-four SHA-256 round constants. -/
def sha256K : List Nat :=
  [1116352408, 1899447441, 3049323471, 3921009573, 961987163, 1508970993,
   2453635748, 2870763221, 3624381080, 310598401, 607225278, 1426881987,
   1925078388, 2162078206, 2614888103, 3248222580, 3835390401, 4022224774,
   264347078, 604807628, 770255983, 1249150122, 1555081692, 1996064986,
   2554220882, 2821834349, 2952996808, 3210313671, 3336571891, 3584528711,
   113926993, 338241895, 666307205, 773529912, 1294757372, 1396182291,
   1695183700, 1986661051, 2177026350, 2456956037, 2730485921, 2820302411,
   3259730800, 3345764771, 3516065817, 3600352804, 4094571909, 275423344,
   430227734, 506948616, 659060556, 883997877, 958139571, 1322822218,
   1537002063, 1747873779, 1955562222, 2024104815, 2227730452, 2361852424,
   2428436474, 2756734187, 3204031479, 3329325298]

/-- Group a byte list into big-endian 32-bit words (four bytes a word). -/
def beWords : Bytes → List Nat
  | a :: b :: c :: d :: rest => (((a * 256 + b) * 256 + c) * 256 + d) :: beWords rest
  | _ => []

/-- Message schedule extension: push words until 64 are present. -/
def sha256Extend : Nat → Array Nat → Array Nat
  | 0, ws => ws
  | n + 1, ws =>
      let i := ws.size
      let w15 := ws.getD (i - 15) 0
      let w2 := ws.getD (i - 2) 0
      let s0 := (rotr 7 w15) ^^^ (rotr 18 w15) ^^^ (w15 >>> 3)
      let s1 := (rotr 17 w2) ^^^ (rotr 19 w2) ^^^ (w2 >>> 10)
      sha256Extend n (ws.push (w32 (ws.getD (i - 16) 0 + s0 + ws.getD (i - 7) 0 + s1)))

/-- One SHA-256 round on the eight-word working state. -/
def sha256Round (kw : Nat × Nat) : List Nat → List Nat
  | [a, b, c, d, e, f, g, h] =>
      let s1 := (rotr 6 e) ^^^ (rotr 11 e) ^^^ (rotr 25 e)
      let ch := (e &&& f) ^^^ ((not32 e) &&& g)
      let t1 := w32 (h + s1 + ch + kw.1 + kw.2)
      let s0 := (rotr 2 a) ^^^ (rotr 13 a) ^^^ (rotr 22 a)
      let maj := (a &&& b) ^^^ (a &&& c) ^^^ (b &&& c)
      let t2 := w32 (s0 + maj)
      [w32 (t1 + t2), a, b, c, w32 (d + t1), e, f, g]
  | s => s

/-- Compress one 64-byte chunk into the running hash state. -/
def sha256Compress (hs : List Nat) (chunk : Bytes) : List Nat :=
  let ws := sha256Extend 48 (Array.mk (beWords chunk))
  let final := (sha256K.zip ws.toList).foldl (fun s kw => sha256Round kw s) hs
  (hs.zip final).map (fun p => w32 (p.1 + p.2))

/-- Split a byte list into 64-byte chunks (fuel is the number of chunks). -/
def chunks64 : Nat → Bytes → List Bytes
  | 0, _ => []
  | n + 1, bs => bs.take 64 :: chunks64 n (bs.drop 64)

/-- SHA-256 padding: append 128, zeros to 56 mod 64, then the bit length. -/
def sha256Pad (m : Bytes) : Bytes :=
  let L := m.length
  let k := (120 - ((L + 1) % 64)) % 64
  m ++ [128] ++ List.replicate k 0 ++ be64 (8 * L)

/-- Expand a 32-bit word into four big-endian bytes. -/
def wordBytes (n : Nat) : Bytes :=
  [n / 16777216 % 256, n / 65536 % 256, n / 256 % 256, n % 256]

/-- SHA-256 of a byte list: a 32-byte digest. -/
def sha256 (m : Bytes) : Bytes :=
  let padded := sha256Pad m
  let state := (chunks64 (padded.length / 64) padded).foldl sha256Compress
    [1779033703, 3144134277, 1013904242, 2773480762,
     1359893119, 2600822924, 528734635, 1541459225]
  state.flatMap wordBytes

/-! ## util/common.mts -/

/-- Model of `padSuffix` from `util/common.mts`: right-pad with zero bytes to `length`;
inputs already at least that long are truncated to `length`. -/
def padSuffix (bytes : Bytes) (length : Nat) : Bytes :=
  if bytes.length ≥ length then bytes.take length
  else bytes ++ List.replicate (length - bytes.length) 0

/-- Model of `removeDERPadding` from `util/common.mts`.  A first byte other than 48
returns the input unchanged (this covers the empty array: `bytes[0]` is
`undefined` there).  A first byte 48 keeps the first `2 + bytes[1]` bytes;
on the one-byte array `[48]`, `bytes[1]` is `undefined`, `2 + undefined`
is `NaN`, and `slice(0, NaN)` is empty. -/
def removeDERPadding (bytes : Bytes) : Bytes :=
  match bytes with
  | b0 :: b1 :: rest =>
      if b0 = 48 then (b0 :: b1 :: rest).take (2 + b1) else bytes
  | [b0] => if b0 = 48 then [] else bytes
  | [] => bytes

/-! ## Transaction codec (`domain/transaction/transaction.mts`)

The source stores input txids as hex strings and converts with
`hexBytes`/`hex` at the serialization boundary; `hex` is injective on byte
arrays, so the model keeps the bytes. -/

/-- Model of `Input`: prev txid (32 bytes), prev output index, and the optional
signature slot as stored (already padded to 72 bytes by the constructor). -/
structure TxInData where
  txid : Bytes
  index : Nat
  signature : Option Bytes
deriving DecidableEq, Repr

/-- The `Input` constructor: a provided signature is padded to 72 bytes. -/
def mkTxIn (txid : Bytes) (index : Nat) (signature : Option Bytes) : TxInData :=
  { txid := txid, index := index, signature := signature.map (padSuffix · 72) }

/-- Model of `Input.buildCoinbaseTxIn`: txid is 64 hex zeros (32 zero bytes), the
index carries the block height, the signature slot carries the miner data
(empty when absent). -/
def buildCoinbaseTxIn (blockHeight : Nat) (data : Bytes) : TxInData :=
  mkTxIn (List.replicate 32 0) blockHeight (some data)

/-- Model of `Input.serializeUnsigned`: txid then big-endian index. -/
def txInSerializeUnsigned (i : TxInData) : Bytes :=
  i.txid ++ be32 (i.index % 4294967296)

/-- Model of `Input.serialize`: txid, index, the 72-byte signature slot; throws when
unsigned. -/
def txInSerialize (i : TxInData) : Except String Bytes :=
  match i.signature with
  | none => .error "Input not signed"
  | some s => .ok (i.txid ++ be32 (i.index % 4294967296) ++ s)

/-- Model of `Input.deserialize`: exactly 108 bytes; the signature slot passes
through `removeDERPadding` and the constructor pads it back to 72. -/
def txInDeserialize (data : Bytes) : Except String TxInData :=
  if data.length ≠ 108 then .error "Invalid input data length"
  else match u32At ((data.drop 32).take 4) with
    | none => .error "RangeError"
    | some idx => .ok (mkTxIn (data.take 32) idx (some (removeDERPadding (data.drop 36))))

/-- Model of `Output`: amount and the 65-byte public key. -/
structure TxOutData where
  amount : Nat
  publicKey : Bytes
deriving DecidableEq, Repr

/-- Model of `Output.serialize`: big-endian 64-bit amount then the public key. -/
def txOutSerialize (o : TxOutData) : Bytes :=
  be64 (o.amount % 18446744073709551616) ++ o.publicKey

/-- Model of `Output.deserialize`: first 8 bytes are the amount, the rest the key;
fewer than 8 bytes raise a RangeError in the source. -/
def txOutDeserialize (data : Bytes) : Except String TxOutData :=
  match u64At (data.take 8) with
  | none => .error "RangeError"
  | some amount => .ok { amount := amount, publicKey := data.drop 8 }

/-- Model of `Transaction`: input list and output list. -/
structure TransactionData where
  inputs : List TxInData
  outputs : List TxOutData
deriving DecidableEq, Repr

/-- Model of `Transaction.bytesLength`: 8 + 108 per input + 73 per output. -/
def txBytesLength (tx : TransactionData) : Nat :=
  8 + tx.inputs.length * 108 + tx.outputs.length * 73

/-- Model of `Transaction.serializeUnsigned`: counts, then unsigned inputs, then
outputs. -/
def txSerializeUnsigned (tx : TransactionData) : Bytes :=
  be32 (tx.inputs.length % 4294967296) ++ be32 (tx.outputs.length % 4294967296)
    ++ tx.inputs.flatMap txInSerializeUnsigned ++ tx.outputs.flatMap txOutSerialize

/-- Model of `Transaction.id`: SHA-256 of the unsigned serialization. -/
def txIdOf (tx : TransactionData) : Bytes := sha256 (txSerializeUnsigned tx)

/-- Model of `Transaction.outputValue`: sum of output amounts. -/
def txOutputValue (tx : TransactionData) : Nat :=
  (tx.outputs.map (·.amount)).sum

/-- Model of `Transaction.serialize`: counts, then signed inputs (throws at the first
unsigned input), then outputs. -/
def txSerialize (tx : TransactionData) : Except String Bytes := do
  let ins ← tx.inputs.mapM txInSerialize
  .ok (be32 (tx.inputs.length % 4294967296) ++ be32 (tx.outputs.length % 4294967296)
    ++ ins.flatten ++ tx.outputs.flatMap txOutSerialize)

/-- Parse `count` fixed-size chunks with `f`. -/
def readChunks (size : Nat) (f : Bytes → Except String α) :
    Nat → Bytes → Except String (List α)
  | 0, _ => .ok []
  | n + 1, bs => do
      let x ← f (bs.take size)
      let rest ← readChunks size f n (bs.drop size)
      .ok (x :: rest)

/-- Model of `Transaction.deserialize`: reads both counts, rejects any data length
other than `8 + 108·inputs + 73·outputs`, then parses the fixed-size
records. -/
def txDeserialize (data : Bytes) : Except String TransactionData := do
  let ic ← match u32At (data.take 4) with
    | none => .error "RangeError" | some n => .ok n
  let oc ← match u32At ((data.drop 4).take 4) with
    | none => .error "RangeError" | some n => .ok n
  if data.length ≠ 8 + ic * 108 + oc * 73 then
    .error "Invalid transaction data length"
  else do
    let ins ← readChunks 108 txInDeserialize ic (data.drop 8)
    let outs ← readChunks 73 txOutDeserialize oc (data.drop (8 + ic * 108))
    .ok { inputs := ins, outputs := outs }

/-- Recursion for `deserializeMany`; every step consumes at least 8 bytes,
so fuel `data.length` suffices. -/
def txDeserializeManyAux : Nat → Bytes → Except String (List TransactionData)
  | 0, _ => .ok []
  | fuel + 1, data =>
      if data.length = 0 then .ok []
      else if data.length < 8 then .error "Invalid transaction data length"
      else
        match u32At (data.take 4), u32At ((data.drop 4).take 4) with
        | some ic, some oc =>
            let txLength := 8 + ic * 108 + oc * 73
            if data.length < txLength then .error "Invalid transaction data length"
            else do
              let tx ← txDeserialize (data.take txLength)
              let rest ← txDeserializeManyAux fuel (data.drop txLength)
              .ok (tx :: rest)
        | _, _ => .error "RangeError"

/-- Model of `Transaction.deserializeMany`: parse back-to-back transactions until the
bytes are exhausted. -/
def txDeserializeMany (data : Bytes) : Except String (List TransactionData) :=
  txDeserializeManyAux data.length data

/-- Model of `Transaction.buildCoinbaseTx`: one synthetic input carrying the height
and the miner data, one output paying `reward` to `toPubKey`. -/
def buildCoinbaseTx (toPubKey : Bytes) (reward : Nat) (blockHeight : Nat)
    (data : Bytes) : TransactionData :=
  { inputs := [buildCoinbaseTxIn blockHeight data],
    outputs := [{ amount := reward, publicKey := toPubKey }] }

/-! ## Block codec (`block.mts`) -/

/-- Model of `BlockData`: the block header fields plus the raw concatenated
transaction bytes. -/
structure BlockData where
  height : Nat
  ts : Nat
  prev : Bytes
  difficulty : Nat
  nonce : Bytes
  txs : Bytes
deriving DecidableEq, Repr

/-- Model of `Block.serialize`: height, timestamp, prev hash, one difficulty byte,
nonce, then the raw transaction bytes. -/
def blockSerialize (b : BlockData) : Bytes :=
  be64 (b.height % 18446744073709551616) ++ be64 (b.ts % 18446744073709551616)
    ++ b.prev ++ [b.difficulty % 256] ++ b.nonce ++ b.txs

/-- Model of `Block.hash`: SHA-256 over the full serialization. -/
def blockHash (b : BlockData) : Bytes := sha256 (blockSerialize b)

/-- Model of `Block.deserialize`.  The source checks `length < 48` explicitly, but a
48-byte input still raises a RangeError when the difficulty DataView is
built at offset 48, so anything shorter than 49 bytes fails. -/
def blockDeserialize (bytes : Bytes) : Except String BlockData :=
  if bytes.length < 49 then .error "Data must be at least 48 bytes long"
  else
    match u64At (bytes.take 8), u64At ((bytes.drop 8).take 8) with
    | some height, some ts =>
        .ok { height := height, ts := ts,
              prev := (bytes.drop 16).take 32,
              difficulty := bytes.getD 48 0,
              nonce := (bytes.drop 49).take 32,
              txs := bytes.drop 81 }
    | _, _ => .error "RangeError"

/-- Model of `bitString` from `util/crypto.mts` as bits: every byte contributes its
eight bits most-significant first. -/
def bitsOf (bytes : Bytes) : List Nat :=
  bytes.flatMap (fun b =>
    [b / 128 % 2, b / 64 % 2, b / 32 % 2, b / 16 % 2,
     b / 8 % 2, b / 4 % 2, b / 2 % 2, b % 2])

/-- Model of `Block.isProofValid`: the first `difficulty` bits of the block hash,
most-significant bit first, are all zero. -/
def isProofValid (b : BlockData) : Bool :=
  ((bitsOf (blockHash b)).take b.difficulty).all (· = 0)

/-- Model of `config.maxDataBytes` (`app/config.mts`): 10240. -/
def maxDataBytes : Nat := 10240

/-- Model of `Block.isValidNext`: the checks a parent runs on a candidate child.
Note that the proof-of-work clause tests the PARENT's own proof
(`this.isProofInvalid()` in the source), not the child's. -/
def isValidNext (parent next : BlockData) (difficulty : Nat) (mtp : Nat) : Bool :=
  if next.height ≠ parent.height + 1 then false
  else if next.ts < mtp then false
  else if next.difficulty ≠ difficulty then false
  else if ¬ isProofValid parent then false
  else if next.txs.length > maxDataBytes then false
  else decide (next.prev = blockHash parent)

/-! ## UTXO set (`domain/transaction/utxo.mts`)

The source keys the set by the string `txid:index`; the model keys by the
pair, which the string determines injectively. -/

/-- Model of `UTxOut`: an unspent output with its provenance. -/
structure UTxOutData where
  blockhash : Bytes
  txid : Bytes
  index : Nat
  output : TxOutData
deriving DecidableEq, Repr

/-- Model of `UTxOutSet.get` by `(txid, index)` key. -/
def utxoGet (s : List UTxOutData) (txid : Bytes) (index : Nat) : Option UTxOutData :=
  s.find? (fun u => u.txid == txid && u.index == index)

/-- Model of `UTxOutSet.add`: record-field assignment overwrites the entry at an
existing key, otherwise appends. -/
def utxoAdd (s : List UTxOutData) (u : UTxOutData) : List UTxOutData :=
  if (utxoGet s u.txid u.index).isSome then
    s.map (fun v => if v.txid == u.txid && v.index == u.index then u else v)
  else s ++ [u]

/-- Model of `UTxOutSet.remove`: delete the entry at the key, if any. -/
def utxoRemove (s : List UTxOutData) (txid : Bytes) (index : Nat) : List UTxOutData :=
  s.filter (fun v => ¬ (v.txid == txid && v.index == index))

/-- Model of `UTxOut.fromTransaction`: one unspent output per transaction output,
indexed in order, owned by the enclosing block hash and the txid. -/
def utxoFromTransaction (blockhash : Bytes) (tx : TransactionData) : List UTxOutData :=
  ((List.range tx.outputs.length).zip tx.outputs).map
    (fun p => { blockhash := blockhash, txid := txIdOf tx, index := p.1, output := p.2 })

/-! ## Chain store and node state (`infra/node/node.mts`)

`Node.blocks` is a `Map<string, Block>` keyed by `hex(hash)`; the model
keys by the hash bytes.  Each stored `Block` object carries a mutable
`next` reference to its active successor; the model represents the object
graph by a finite map from a block's own hash to its successor block, which
identifies a block object with its hash (sound absent SHA-256 collisions
among distinct stored blocks). -/

/-- First-match association-list lookup (JS `Map.get` / record index). -/
def lookupKV (m : List (Bytes × α)) (k : Bytes) : Option α :=
  (m.find? (fun p => p.1 == k)).map (·.2)

/-- JS `Map.set` / record assignment: overwrite in place or append. -/
def storeSet (m : List (Bytes × α)) (k : Bytes) (v : α) : List (Bytes × α) :=
  if (lookupKV m k).isSome then m.map (fun p => if p.1 == k then (k, v) else p)
  else m ++ [(k, v)]

/-- Block stores: hash key to block. -/
abbrev StoreMap := List (Bytes × BlockData)

/-- The backward ancestor walk shared by `Node.top(n)` (over the chain
store alone) and the local `last(tail, n)` (over orphans-then-store, which
is the lookup in the concatenated map): step to the parent up to `n`
times, stopping early — and returning the last block found — as soon as a
parent is missing. -/
def lastWalk (m : StoreMap) : Nat → BlockData → BlockData
  | 0, b => b
  | n + 1, b =>
      match lookupKV m b.prev with
      | none => b
      | some p => lastWalk m n p

/-- Model of `DIFFICULTY_ADJUSTMENT_EVERY_BLOCKS` (`app/config.mts`). -/
def difficultyAdjustmentEveryBlocks : Nat := 10

/-- Model of `BLOCK_GENERATION_TARGET_IN_MILLS`. -/
def blockGenerationTargetInMills : Nat := 10000

/-- Model of `MEDIAN_TIME_PAST_WINDOW`. -/
def medianTimePastWindow : Nat := 11

/-- Model of `MAX_FUTURE_DRIFT_IN_MILLS` (two minutes). -/
def maxFutureDriftInMills : Nat := 120000

/-- Model of `MIN_TX_FEES_EVERY_BYTE`. -/
def minTxFeesEveryByte : Nat := 1

/-- Model of `COINBASE_REWARD`. -/
def coinbaseReward : Nat := 5000000000

/-- Model of `REWARD_HALVING_EVERY_BLOCKS`. -/
def rewardHalvingEveryBlocks : Nat := 210000

/-- Model of `Node.getExpectedDifficulty(prev, lastDuration)`: away from retarget
heights the child inherits the parent's difficulty; at heights with
`prev.height % 10 == 0` the duration is compared against
`expected/2 = 50000` and `expected*2 = 200000` and the difficulty is bumped
within `[1, 256]` (`2 << 7 = 256`; in JS `Math.max(0 - 1, 1) = 1`, which
truncated `Nat` subtraction reproduces).  The duration is an `Int`: the
source subtracts timestamps that need not be monotone. -/
def getExpectedDifficulty (prev : BlockData) (lastDuration : Int) : Nat :=
  if prev.height % difficultyAdjustmentEveryBlocks ≠ 0 then prev.difficulty
  else
    let expected : Int := (blockGenerationTargetInMills * difficultyAdjustmentEveryBlocks : Nat)
    if lastDuration < expected / 2 then min (prev.difficulty + 1) 256
    else if lastDuration > expected * 2 then max (prev.difficulty - 1) 1
    else prev.difficulty

/-- Model of `Node.getCoinbaseRewardAtHeight`: `floor(5e9 / 2^floor(h/210000))`.
The JS float division is exact here: 5e9 has a 33-bit mantissa, division
by a power of two only shifts the exponent, and `Math.floor` of the exact
rational equals natural division (down to 0 once the quotient is below
one, matching the float underflow to 0). -/
def getCoinbaseRewardAtHeight (height : Nat) : Nat :=
  coinbaseReward / 2 ^ (height / rewardHalvingEveryBlocks)

/-- The secp256k1 signature verification (`elliptic`'s `key.verify`) is a
black-box capability: `data`, `signature`, `publicKey` to a Bool. -/
abbrev ECVerify := Bytes → Bytes → Bytes → Bool

/-- The per-input signature loop of the validator: the outer check rejects
an unsigned input, then `Account.verifyTxIn` verifies the stripped
signature (the `Input.signature` getter applies `removeDERPadding`)
against the referenced output's public key over the txid. -/
def checkSigs (ecVerify : ECVerify) (txid : Bytes) :
    List (TxInData × UTxOutData) → Except String Unit
  | [] => .ok ()
  | (input, r) :: rest =>
      match input.signature with
      | none => .error "Transaction input not signed"
      | some s =>
          if ecVerify txid (removeDERPadding s) r.output.publicKey then
            checkSigs ecVerify txid rest
          else .error "Transaction input signature invalid"

/-- One non-coinbase transaction inside
`validateNewBlocksAndUpdateUTxOuts`: resolve every input in the running
UTXO set, require `totalIn ≥ totalOut`, verify every signature, require
the fee `totalIn − totalOut` to reach one sat per serialized byte, then
spend the inputs and add the outputs.  Returns the updated set and the
transaction's fee contribution. -/
def applyTx (ecVerify : ECVerify) (bhash : Bytes) (u : List UTxOutData)
    (tx : TransactionData) : Except String (List UTxOutData × Nat) := do
  let refs ← tx.inputs.mapM (fun i =>
    match utxoGet u i.txid i.index with
    | none => Except.error "Transaction input UTxOut not found"
    | some r => Except.ok r)
  let totalIn := (refs.map (·.output.amount)).sum
  let totalOut := (tx.outputs.map (·.amount)).sum
  if totalIn < totalOut then .error "Transaction outputs exceed inputs"
  else do
    checkSigs ecVerify (txIdOf tx) (tx.inputs.zip refs)
    if totalIn - totalOut < txBytesLength tx * minTxFeesEveryByte then
      .error "Transaction fees too low"
    else
      let u1 := refs.foldl (fun acc r => utxoRemove acc r.txid r.index) u
      let u2 := (utxoFromTransaction bhash tx).foldl utxoAdd u1
      .ok (u2, totalIn - totalOut)

/-- The non-coinbase transactions of a block in order, accumulating the
total fee. -/
def applyTxs (ecVerify : ECVerify) (bhash : Bytes) :
    List UTxOutData → List TransactionData → Except String (List UTxOutData × Nat)
  | u, [] => .ok (u, 0)
  | u, tx :: rest => do
      let (u1, fee) ← applyTx ecVerify bhash u tx
      let (u2, fees) ← applyTxs ecVerify bhash u1 rest
      .ok (u2, fee + fees)

/-- The coinbase epilogue of a block: the first parsed transaction must
have exactly one input carrying the block height as its index and exactly
one output, bounded by subsidy plus fees; its outputs then enter the UTXO
set.  An empty transaction list makes `coinbase.inputs` a property access
on `undefined`, a TypeError the caller's catch treats as a rejection. -/
def applyCoinbase (height : Nat) (bhash : Bytes) (u : List UTxOutData)
    (txs : List TransactionData) (totalFee : Nat) : Except String (List UTxOutData) :=
  match txs.get? 0 with
  | none => .error "TypeError: coinbase is undefined"
  | some coinbase =>
      match coinbase.inputs, coinbase.outputs with
      | [i0], [o0] =>
          if i0.index ≠ height then .error "Invalid coinbase transaction"
          else if o0.amount > getCoinbaseRewardAtHeight height + totalFee then
            .error "Coinbase transaction output exceeds maximum"
          else .ok ((utxoFromTransaction bhash coinbase).foldl utxoAdd u)
      | _, _ => .error "Invalid coinbase transaction"

/-- One iteration of the block loop in
`validateNewBlocksAndUpdateUTxOuts`: compute the duration from the walk
rooted at the CHILD (`last(block, 10)`), the expected difficulty from the
parent, the MTP from the walk rooted at the parent (`last(prev, 5)`),
check `isValidNext`, then the block's transactions and coinbase.  `m` is
the orphans-then-store lookup map. -/
def validateBlockStep (ecVerify : ECVerify) (m : StoreMap) (prev : BlockData)
    (u : List UTxOutData) (block : BlockData) : Except String (List UTxOutData) := do
  let duration : Int := (prev.ts : Int) - ((lastWalk m 10 block).ts : Int)
  let expectedDifficulty := getExpectedDifficulty prev duration
  let mtp := (lastWalk m (medianTimePastWindow / 2) prev).ts
  if ¬ isValidNext prev block expectedDifficulty mtp then
    .error "Invalid block sequence or proof"
  else do
    let txs ← txDeserializeMany block.txs
    let (u1, totalFee) ← applyTxs ecVerify (blockHash block) u (txs.drop 1)
    applyCoinbase block.height (blockHash block) u1 txs totalFee

/-- The block loop: validate the segment forward, threading the parent and
the UTXO snapshot. -/
def validateBlocksLoop (ecVerify : ECVerify) (m : StoreMap) :
    BlockData → List UTxOutData → List BlockData → Except String (List UTxOutData)
  | _, u, [] => .ok u
  | prev, u, b :: rest => do
      let u1 ← validateBlockStep ecVerify m prev u b
      validateBlocksLoop ecVerify m b u1 rest

/-- Model of `Node.validateNewBlocksAndUpdateUTxOuts` up to its commit: the
future-drift check on the tip, the parent lookup for the segment start in
the chain store alone, then the forward block loop over a copy of the
given UTXO base.  Returns the UTXO set to commit. -/
def validateNewBlocks (ecVerify : ECVerify) (now : Nat) (store : StoreMap)
    (base : List UTxOutData) (orphans : StoreMap) (start : BlockData)
    (rest : List BlockData) (tipB : BlockData) : Except String (List UTxOutData) :=
  if tipB.ts ≥ now + maxFutureDriftInMills then
    .error "Block timestamp too far in the future"
  else
    match lookupKV store start.prev with
    | none => .error "Previous block not found"
    | some prevB => validateBlocksLoop ecVerify (orphans ++ store) prevB base (start :: rest)

/-- The mutable node state the sync engine owns: the chain store, the
forward `next` links (keyed by the hash of the block that carries the
pointer), the tip, the active UTXO set, and the mempool entries with their
recorded fees. -/
structure NodeState where
  blocks : StoreMap
  nexts : List (Bytes × BlockData)
  tip : BlockData
  utxos : List UTxOutData
  pool : List (TransactionData × Nat)
deriving DecidableEq, Repr

/-- Follow `next` pointers from a block, as `validateDifficulty` and the
commit's suffix deletion do.  The fuel `nexts.length + 1` covers every
acyclic pointer graph; on a cyclic graph the source would not terminate,
a state the node never constructs. -/
def nextChain (nexts : List (Bytes × BlockData)) : Nat → Option BlockData → List BlockData
  | 0, _ => []
  | _ + 1, none => []
  | fuel + 1, some b => b :: nextChain nexts fuel (lookupKV nexts (blockHash b))

/-- Nonnegative integer-valued IEEE-754 doubles, represented by their
exact value; `none` is positive infinity.  Every value the reorg gate
accumulates has this shape: `2 ** d` is a power of two for `d ≤ 1023`
(infinity beyond), and rounding the sum of two nonnegative integer-valued
doubles to 53 significant bits yields another nonnegative integer, since
every representable double of magnitude at least 2^52 is an integer and
smaller integers are exact. -/
abbrev F64 := Option Nat

/-- Model of the JavaScript `2 ** d` on a nonnegative integer exponent:
the exact power of two up to 2^1023, infinity beyond. -/
def pow2F64 (d : Nat) : F64 :=
  if d ≤ 1023 then some (2 ^ d) else none

/-- Fuel-bounded floor of the base-2 logarithm (structural, so it
evaluates inside the kernel; `Nat.log2` is well-founded and does not). -/
def log2Fuel : Nat → Nat → Nat
  | 0, _ => 0
  | fuel + 1, n => if n ≥ 2 then log2Fuel fuel (n / 2) + 1 else 0

/-- Floor of the base-2 logarithm, with fuel `n` (always sufficient since
the argument halves each step). -/
def log2F (n : Nat) : Nat := log2Fuel n n

/-- Round a nonnegative integer to the nearest binary64 value: keep the
top 53 significant bits, rounding to nearest with ties to even, and
overflow to infinity at 2^1024 (integers below 2^53 are exact). -/
def roundF64 (n : Nat) : F64 :=
  if n < 9007199254740992 then some n
  else
    let k := log2F n - 52
    let q := n / 2 ^ k
    let r := n % 2 ^ k
    let q2 := if 2 * r > 2 ^ k ∨ (2 * r = 2 ^ k ∧ q % 2 = 1) then q + 1 else q
    if q2 * 2 ^ k < 179769313486231590772930519078902473361797697894230657273430081157732675805500963132708477322407536021120113879871393357658789768814416622492847430639474124377767893424865485276302219601246094119453082952085005768838150682342462881473913110540827237163350510684586298239947245938479716304835356329624224137216 then some (q2 * 2 ^ k) else none

/-- Model of float64 addition on nonnegative integer-valued doubles. -/
def addF64 (a b : F64) : F64 :=
  match a, b with
  | some x, some y => roundF64 (x + y)
  | _, _ => none

/-- Model of the float64 comparison `incoming >= local` (infinity compares
greater-or-equal to everything, including itself). -/
def geF64 (a b : F64) : Bool :=
  match a, b with
  | some x, some y => decide (x ≥ y)
  | none, _ => true
  | some _, none => false

/-- Cumulative work of the fetched orphan map's values as the source
computes it: the float64 left-accumulation
`reduce((sum, block) => sum + 2 ** block.difficulty, 0)`. -/
def incomingWork (orphans : StoreMap) : F64 :=
  orphans.foldl (fun s p => addF64 s (pow2F64 p.2.difficulty)) (some 0)

/-- The displaced local suffix: the `next` chain from the fork's successor
onward. -/
def localSuffix (st : NodeState) (forkNext : BlockData) : List BlockData :=
  nextChain st.nexts (st.nexts.length + 1) (some forkNext)

/-- Cumulative work of the displaced local suffix as the source computes
it: the float64 left-accumulation `total += 2 ** block.difficulty` along
the `next` chain. -/
def localWork (st : NodeState) (forkNext : BlockData) : F64 :=
  (localSuffix st forkNext).foldl (fun s b => addF64 s (pow2F64 b.difficulty)) (some 0)

/-- The cumulative works exactly as claim C2 words them: exact natural
sums of `2^difficulty` over the incoming orphans. -/
def specIncomingWork (orphans : StoreMap) : Nat :=
  (orphans.map (fun p => 2 ^ p.2.difficulty)).sum

/-- The exact natural cumulative work of the displaced local suffix, as
claim C2 words it. -/
def specLocalWork (st : NodeState) (forkNext : BlockData) : Nat :=
  ((localSuffix st forkNext).map (fun b => 2 ^ b.difficulty)).sum

/-- Model of `Node.validateDifficulty`: a null start passes; otherwise the
incoming float64-accumulated work must reach the local suffix's. -/
def validateDifficulty (st : NodeState) (forkNext : Option BlockData)
    (orphans : StoreMap) : Except String Unit :=
  match forkNext with
  | none => .ok ()
  | some fn =>
      if geF64 (incomingWork orphans) (localWork st fn) then .ok ()
      else .error "Incoming chain has insufficient cumulative difficulty"

/-- An assembled incoming branch after gap fill: the fetched orphan map and
the stitched chain `start :: rest` whose last element is the announced
block. -/
structure Incoming where
  orphans : StoreMap
  start : BlockData
  rest : List BlockData
deriving DecidableEq, Repr

/-- The stitched incoming chain, fork child first. -/
def Incoming.chain (inc : Incoming) : List BlockData := inc.start :: inc.rest

/-- The announced block at the end of the incoming chain, which becomes the
new tip on success. -/
def Incoming.tipBlock (inc : Incoming) : BlockData := inc.rest.getLastD inc.start

/-- The forward links along the incoming chain, as `connect` set them
during stitching. -/
def chainLinks : List BlockData → List (Bytes × BlockData)
  | a :: b :: rest => (blockHash a, b) :: chainLinks (b :: rest)
  | _ => []

/-- The commit step of `onNewBlocks` after successful validation: walk and
delete the old active suffix from the chain store (by recomputed hashes),
connect the fork to the incoming chain, insert the orphans, advance the
tip, replace the UTXO set, and drop every mempool transaction with an
input no longer unspent. -/
def commitBranch (st : NodeState) (inc : Incoming) (newUtxos : List UTxOutData) : NodeState :=
  let forkHash := inc.start.prev
  let oldSuffix := match lookupKV st.blocks forkHash with
    | none => []
    | some fork => nextChain st.nexts (st.nexts.length + 1) (lookupKV st.nexts (blockHash fork))
  let oldKeys := oldSuffix.map blockHash
  let blocks1 := st.blocks.filter (fun p => ¬ oldKeys.contains p.1)
  let blocks2 := inc.orphans.foldl (fun m p => storeSet m p.1 p.2) blocks1
  let nexts1 := st.nexts.filter (fun p => ¬ oldKeys.contains p.1)
  let nexts2 := match lookupKV st.blocks forkHash with
    | none => nexts1
    | some fork => storeSet nexts1 (blockHash fork) inc.start
  let nexts3 := (chainLinks inc.chain).foldl (fun m p => storeSet m p.1 p.2) nexts2
  { blocks := blocks2, nexts := nexts3, tip := inc.tipBlock, utxos := newUtxos,
    pool := st.pool.filter
      (fun p => p.1.inputs.all (fun i => (utxoGet newUtxos i.txid i.index).isSome)) }

/-- Model of `Node.onNewBlocks` from the point the incoming branch is assembled:
find the fork; when the fork has no successor the branch extends the
active chain and is validated over the live UTXO set; otherwise it is a
reorg, gated by `validateDifficulty` and re-validated over the rebuilt
snapshot.  That snapshot (`validateAndRecalculateUTxOuts`) walks `next`
pointers from a FRESHLY deserialized genesis object, whose `next` is null,
so the walk visits only that object, whose non-coinbase transaction list
is empty: the rebuilt base is the empty set.  On success the branch is
committed. -/
def processBranch (ecVerify : ECVerify) (now : Nat) (st : NodeState)
    (inc : Incoming) : Except String NodeState := do
  let forkHash := inc.start.prev
  match lookupKV st.blocks forkHash with
  | none => .error "Previous block not found"
  | some fork =>
      match lookupKV st.nexts (blockHash fork) with
      | none => do
          let u ← validateNewBlocks ecVerify now st.blocks st.utxos inc.orphans
            inc.start inc.rest inc.tipBlock
          .ok (commitBranch st inc u)
      | some forkNext => do
          validateDifficulty st (some forkNext) inc.orphans
          let u ← validateNewBlocks ecVerify now st.blocks [] inc.orphans
            inc.start inc.rest inc.tipBlock
          .ok (commitBranch st inc u)

/-- The whole handler: any thrown validation error is caught (or, for the
pre-validation lookups, rejected by the task queue) and the node state is
left as it was. -/
def onNewBlocksModel (ecVerify : ECVerify) (now : Nat) (st : NodeState)
    (inc : Incoming) : NodeState :=
  match processBranch ecVerify now st inc with
  | .ok st1 => st1
  | .error _ => st


/-- Truth of an `Except` result (the source's success path). -/
def isOkE {α : Type} : Except String α → Bool
  | .ok _ => true
  | .error _ => false

/-- A signature verifier that rejects everything; the concrete scenarios
contain no non-coinbase transactions, so it is never consulted. -/
def ecFalse : ECVerify := fun _ _ _ => false

/-- Concrete test block `gB`. -/
def gB : BlockData :=
  { height := 0, ts := 1000, prev := [0, 0, 0, 0, 0, 0, 0, 0, 0, 0, 0, 0, 0, 0, 0, 0, 0, 0, 0, 0, 0, 0, 0, 0, 0, 0, 0, 0, 0, 0, 0, 0],
    difficulty := 1, nonce := [0, 0, 0, 0, 0, 0, 0, 0, 0, 0, 0, 0, 0, 0, 0, 0, 0, 0, 0, 0, 0, 0, 0, 0, 0, 0, 0, 0, 0, 0, 0, 0],
    txs := [] }

/-- Precomputed hash of `gB` (checked against `blockHash` by the
acceptance computations that look blocks up under this key). -/
def gBHash : Bytes := [118, 160, 97, 1, 200, 211, 126, 38, 50, 217, 179, 109, 184, 61, 186, 157, 114, 163, 102, 126, 210, 202, 8, 204, 102, 82, 195, 124, 201, 179, 115, 182]

/-- Concrete test block `b1m`. -/
def b1m : BlockData :=
  { height := 1, ts := 1000, prev := [118, 160, 97, 1, 200, 211, 126, 38, 50, 217, 179, 109, 184, 61, 186, 157, 114, 163, 102, 126, 210, 202, 8, 204, 102, 82, 195, 124, 201, 179, 115, 182],
    difficulty := 2, nonce := [0, 0, 0, 0, 0, 0, 0, 0, 0, 0, 0, 0, 0, 0, 0, 0, 0, 0, 0, 0, 0, 0, 0, 0, 0, 0, 0, 0, 0, 0, 0, 1],
    txs := [0, 0, 0, 1, 0, 0, 0, 1, 0, 0, 0, 0, 0, 0, 0, 0, 0, 0, 0, 0, 0, 0, 0, 0, 0, 0, 0, 0, 0, 0, 0, 0, 0, 0, 0, 0, 0, 0, 0, 0, 0, 0, 0, 1, 119, 105, 116, 110, 101, 115, 115, 32, 116, 120, 32, 49, 0, 0, 0, 0, 0, 0, 0, 0, 0, 0, 0, 0, 0, 0, 0, 0, 0, 0, 0, 0, 0, 0, 0, 0, 0, 0, 0, 0, 0, 0, 0, 0, 0, 0, 0, 0, 0, 0, 0, 0, 0, 0, 0, 0, 0, 0, 0, 0, 0, 0, 0, 0, 0, 0, 0, 0, 0, 0, 0, 0, 0, 0, 0, 1, 42, 5, 242, 0, 4, 7, 7, 7, 7, 7, 7, 7, 7, 7, 7, 7, 7, 7, 7, 7, 7, 7, 7, 7, 7, 7, 7, 7, 7, 7, 7, 7, 7, 7, 7, 7, 7, 7, 7, 7, 7, 7, 7, 7, 7, 7, 7, 7, 7, 7, 7, 7, 7, 7, 7, 7, 7, 7, 7, 7, 7, 7, 7, 7, 7, 7, 7, 7, 7] }

/-- Precomputed hash of `b1m` (checked against `blockHash` by the
acceptance computations that look blocks up under this key). -/
def b1mHash : Bytes := [22, 138, 121, 139, 167, 143, 202, 195, 91, 205, 193, 118, 252, 149, 189, 16, 13, 11, 35, 29, 41, 221, 112, 83, 59, 112, 36, 102, 40, 216, 138, 154]

/-- Concrete test block `b2c`. -/
def b2c : BlockData :=
  { height := 2, ts := 1000, prev := [22, 138, 121, 139, 167, 143, 202, 195, 91, 205, 193, 118, 252, 149, 189, 16, 13, 11, 35, 29, 41, 221, 112, 83, 59, 112, 36, 102, 40, 216, 138, 154],
    difficulty := 2, nonce := [0, 0, 0, 0, 0, 0, 0, 0, 0, 0, 0, 0, 0, 0, 0, 0, 0, 0, 0, 0, 0, 0, 0, 0, 0, 0, 0, 0, 0, 0, 0, 0],
    txs := [0, 0, 0, 1, 0, 0, 0, 1, 0, 0, 0, 0, 0, 0, 0, 0, 0, 0, 0, 0, 0, 0, 0, 0, 0, 0, 0, 0, 0, 0, 0, 0, 0, 0, 0, 0, 0, 0, 0, 0, 0, 0, 0, 2, 119, 105, 116, 110, 101, 115, 115, 32, 116, 120, 32, 50, 0, 0, 0, 0, 0, 0, 0, 0, 0, 0, 0, 0, 0, 0, 0, 0, 0, 0, 0, 0, 0, 0, 0, 0, 0, 0, 0, 0, 0, 0, 0, 0, 0, 0, 0, 0, 0, 0, 0, 0, 0, 0, 0, 0, 0, 0, 0, 0, 0, 0, 0, 0, 0, 0, 0, 0, 0, 0, 0, 0, 0, 0, 0, 1, 42, 5, 242, 0, 4, 7, 7, 7, 7, 7, 7, 7, 7, 7, 7, 7, 7, 7, 7, 7, 7, 7, 7, 7, 7, 7, 7, 7, 7, 7, 7, 7, 7, 7, 7, 7, 7, 7, 7, 7, 7, 7, 7, 7, 7, 7, 7, 7, 7, 7, 7, 7, 7, 7, 7, 7, 7, 7, 7, 7, 7, 7, 7, 7, 7, 7, 7, 7, 7] }

/-- Precomputed hash of `b2c` (checked against `blockHash` by the
acceptance computations that look blocks up under this key). -/
def b2cHash : Bytes := [190, 30, 29, 169, 74, 196, 179, 243, 95, 127, 141, 53, 212, 245, 111, 217, 126, 27, 102, 87, 127, 214, 116, 235, 127, 97, 220, 23, 97, 220, 236, 31]

/-- Concrete test block `b1u`. -/
def b1u : BlockData :=
  { height := 1, ts := 1000, prev := [118, 160, 97, 1, 200, 211, 126, 38, 50, 217, 179, 109, 184, 61, 186, 157, 114, 163, 102, 126, 210, 202, 8, 204, 102, 82, 195, 124, 201, 179, 115, 182],
    difficulty := 2, nonce := [0, 0, 0, 0, 0, 0, 0, 0, 0, 0, 0, 0, 0, 0, 0, 0, 0, 0, 0, 0, 0, 0, 0, 0, 0, 0, 0, 0, 0, 0, 0, 0],
    txs := [0, 0, 0, 1, 0, 0, 0, 1, 0, 0, 0, 0, 0, 0, 0, 0, 0, 0, 0, 0, 0, 0, 0, 0, 0, 0, 0, 0, 0, 0, 0, 0, 0, 0, 0, 0, 0, 0, 0, 0, 0, 0, 0, 1, 105, 110, 118, 97, 108, 105, 100, 32, 112, 114, 111, 111, 102, 32, 116, 105, 112, 0, 0, 0, 0, 0, 0, 0, 0, 0, 0, 0, 0, 0, 0, 0, 0, 0, 0, 0, 0, 0, 0, 0, 0, 0, 0, 0, 0, 0, 0, 0, 0, 0, 0, 0, 0, 0, 0, 0, 0, 0, 0, 0, 0, 0, 0, 0, 0, 0, 0, 0, 0, 0, 0, 0, 0, 0, 0, 1, 42, 5, 242, 0, 4, 7, 7, 7, 7, 7, 7, 7, 7, 7, 7, 7, 7, 7, 7, 7, 7, 7, 7, 7, 7, 7, 7, 7, 7, 7, 7, 7, 7, 7, 7, 7, 7, 7, 7, 7, 7, 7, 7, 7, 7, 7, 7, 7, 7, 7, 7, 7, 7, 7, 7, 7, 7, 7, 7, 7, 7, 7, 7, 7, 7, 7, 7, 7, 7] }

/-- Precomputed hash of `b1u` (checked against `blockHash` by the
acceptance computations that look blocks up under this key). -/
def b1uHash : Bytes := [116, 139, 153, 221, 103, 20, 9, 119, 24, 176, 240, 186, 165, 67, 89, 109, 129, 252, 25, 86, 61, 17, 245, 186, 150, 74, 138, 20, 42, 125, 159, 17]

/-- Concrete test block `b1bad`. -/
def b1bad : BlockData :=
  { height := 5, ts := 1000, prev := [118, 160, 97, 1, 200, 211, 126, 38, 50, 217, 179, 109, 184, 61, 186, 157, 114, 163, 102, 126, 210, 202, 8, 204, 102, 82, 195, 124, 201, 179, 115, 182],
    difficulty := 2, nonce := [0, 0, 0, 0, 0, 0, 0, 0, 0, 0, 0, 0, 0, 0, 0, 0, 0, 0, 0, 0, 0, 0, 0, 0, 0, 0, 0, 0, 0, 0, 0, 0],
    txs := [0, 0, 0, 1, 0, 0, 0, 1, 0, 0, 0, 0, 0, 0, 0, 0, 0, 0, 0, 0, 0, 0, 0, 0, 0, 0, 0, 0, 0, 0, 0, 0, 0, 0, 0, 0, 0, 0, 0, 0, 0, 0, 0, 1, 105, 110, 118, 97, 108, 105, 100, 32, 112, 114, 111, 111, 102, 32, 116, 105, 112, 0, 0, 0, 0, 0, 0, 0, 0, 0, 0, 0, 0, 0, 0, 0, 0, 0, 0, 0, 0, 0, 0, 0, 0, 0, 0, 0, 0, 0, 0, 0, 0, 0, 0, 0, 0, 0, 0, 0, 0, 0, 0, 0, 0, 0, 0, 0, 0, 0, 0, 0, 0, 0, 0, 0, 0, 0, 0, 1, 42, 5, 242, 0, 4, 7, 7, 7, 7, 7, 7, 7, 7, 7, 7, 7, 7, 7, 7, 7, 7, 7, 7, 7, 7, 7, 7, 7, 7, 7, 7, 7, 7, 7, 7, 7, 7, 7, 7, 7, 7, 7, 7, 7, 7, 7, 7, 7, 7, 7, 7, 7, 7, 7, 7, 7, 7, 7, 7, 7, 7, 7, 7, 7, 7, 7, 7, 7, 7] }

/-- Precomputed hash of `b1bad` (checked against `blockHash` by the
acceptance computations that look blocks up under this key). -/
def b1badHash : Bytes := [160, 218, 169, 96, 81, 239, 181, 216, 23, 197, 43, 200, 41, 143, 164, 239, 32, 156, 78, 145, 160, 56, 175, 168, 167, 71, 132, 94, 143, 187, 42, 67]

/-- Concrete test block `a1B`. -/
def a1B : BlockData :=
  { height := 1, ts := 1000, prev := [118, 160, 97, 1, 200, 211, 126, 38, 50, 217, 179, 109, 184, 61, 186, 157, 114, 163, 102, 126, 210, 202, 8, 204, 102, 82, 195, 124, 201, 179, 115, 182],
    difficulty := 2, nonce := [0, 0, 0, 0, 0, 0, 0, 0, 0, 0, 0, 0, 0, 0, 0, 0, 0, 0, 0, 0, 0, 0, 0, 0, 0, 0, 0, 0, 0, 0, 0, 0],
    txs := [] }

/-- Precomputed hash of `a1B` (checked against `blockHash` by the
acceptance computations that look blocks up under this key). -/
def a1BHash : Bytes := [49, 85, 169, 188, 200, 40, 204, 82, 157, 151, 237, 108, 205, 255, 32, 202, 118, 162, 243, 25, 199, 82, 103, 138, 23, 221, 236, 187, 184, 71, 205, 116]

/-- Concrete test block `r1B`. -/
def r1B : BlockData :=
  { height := 1, ts := 1000, prev := [118, 160, 97, 1, 200, 211, 126, 38, 50, 217, 179, 109, 184, 61, 186, 157, 114, 163, 102, 126, 210, 202, 8, 204, 102, 82, 195, 124, 201, 179, 115, 182],
    difficulty := 2, nonce := [0, 0, 0, 0, 0, 0, 0, 0, 0, 0, 0, 0, 0, 0, 0, 0, 0, 0, 0, 0, 0, 0, 0, 0, 0, 0, 0, 0, 0, 0, 0, 0],
    txs := [0, 0, 0, 1, 0, 0, 0, 1, 0, 0, 0, 0, 0, 0, 0, 0, 0, 0, 0, 0, 0, 0, 0, 0, 0, 0, 0, 0, 0, 0, 0, 0, 0, 0, 0, 0, 0, 0, 0, 0, 0, 0, 0, 1, 114, 101, 111, 114, 103, 32, 98, 114, 97, 110, 99, 104, 0, 0, 0, 0, 0, 0, 0, 0, 0, 0, 0, 0, 0, 0, 0, 0, 0, 0, 0, 0, 0, 0, 0, 0, 0, 0, 0, 0, 0, 0, 0, 0, 0, 0, 0, 0, 0, 0, 0, 0, 0, 0, 0, 0, 0, 0, 0, 0, 0, 0, 0, 0, 0, 0, 0, 0, 0, 0, 0, 0, 0, 0, 0, 1, 42, 5, 242, 0, 4, 7, 7, 7, 7, 7, 7, 7, 7, 7, 7, 7, 7, 7, 7, 7, 7, 7, 7, 7, 7, 7, 7, 7, 7, 7, 7, 7, 7, 7, 7, 7, 7, 7, 7, 7, 7, 7, 7, 7, 7, 7, 7, 7, 7, 7, 7, 7, 7, 7, 7, 7, 7, 7, 7, 7, 7, 7, 7, 7, 7, 7, 7, 7, 7] }

/-- Precomputed hash of `r1B` (checked against `blockHash` by the
acceptance computations that look blocks up under this key). -/
def r1BHash : Bytes := [187, 183, 7, 192, 40, 148, 154, 2, 128, 56, 60, 27, 14, 70, 73, 101, 74, 207, 69, 189, 155, 232, 251, 206, 2, 49, 215, 162, 118, 7, 186, 199]

/-- Concrete test block `c1B`. -/
def c1B : BlockData :=
  { height := 1, ts := 1000, prev := [118, 160, 97, 1, 200, 211, 126, 38, 50, 217, 179, 109, 184, 61, 186, 157, 114, 163, 102, 126, 210, 202, 8, 204, 102, 82, 195, 124, 201, 179, 115, 182],
    difficulty := 1, nonce := [0, 0, 0, 0, 0, 0, 0, 0, 0, 0, 0, 0, 0, 0, 0, 0, 0, 0, 0, 0, 0, 0, 0, 0, 0, 0, 0, 0, 0, 0, 0, 0],
    txs := [0, 0, 0, 1, 0, 0, 0, 1, 0, 0, 0, 0, 0, 0, 0, 0, 0, 0, 0, 0, 0, 0, 0, 0, 0, 0, 0, 0, 0, 0, 0, 0, 0, 0, 0, 0, 0, 0, 0, 0, 0, 0, 0, 1, 119, 101, 97, 107, 32, 98, 114, 97, 110, 99, 104, 0, 0, 0, 0, 0, 0, 0, 0, 0, 0, 0, 0, 0, 0, 0, 0, 0, 0, 0, 0, 0, 0, 0, 0, 0, 0, 0, 0, 0, 0, 0, 0, 0, 0, 0, 0, 0, 0, 0, 0, 0, 0, 0, 0, 0, 0, 0, 0, 0, 0, 0, 0, 0, 0, 0, 0, 0, 0, 0, 0, 0, 0, 0, 0, 1, 42, 5, 242, 0, 4, 7, 7, 7, 7, 7, 7, 7, 7, 7, 7, 7, 7, 7, 7, 7, 7, 7, 7, 7, 7, 7, 7, 7, 7, 7, 7, 7, 7, 7, 7, 7, 7, 7, 7, 7, 7, 7, 7, 7, 7, 7, 7, 7, 7, 7, 7, 7, 7, 7, 7, 7, 7, 7, 7, 7, 7, 7, 7, 7, 7, 7, 7, 7, 7] }

/-- Precomputed hash of `c1B` (checked against `blockHash` by the
acceptance computations that look blocks up under this key). -/
def c1BHash : Bytes := [138, 234, 137, 194, 223, 142, 234, 11, 60, 115, 50, 229, 244, 41, 82, 243, 124, 88, 68, 177, 186, 247, 218, 37, 244, 202, 89, 192, 246, 169, 27, 237]

/-- Concrete test block `d0`. -/
def d0 : BlockData :=
  { height := 0, ts := 1000, prev := [0, 0, 0, 0, 0, 0, 0, 0, 0, 0, 0, 0, 0, 0, 0, 0, 0, 0, 0, 0, 0, 0, 0, 0, 0, 0, 0, 0, 0, 0, 0, 0],
    difficulty := 1, nonce := [0, 0, 0, 0, 0, 0, 0, 0, 0, 0, 0, 0, 0, 0, 0, 0, 0, 0, 0, 0, 0, 0, 0, 0, 0, 0, 0, 0, 0, 0, 0, 0],
    txs := [] }

/-- Precomputed hash of `d0` (checked against `blockHash` by the
acceptance computations that look blocks up under this key). -/
def d0Hash : Bytes := [118, 160, 97, 1, 200, 211, 126, 38, 50, 217, 179, 109, 184, 61, 186, 157, 114, 163, 102, 126, 210, 202, 8, 204, 102, 82, 195, 124, 201, 179, 115, 182]

/-- Concrete test block `d1`. -/
def d1 : BlockData :=
  { height := 1, ts := 61000, prev := [118, 160, 97, 1, 200, 211, 126, 38, 50, 217, 179, 109, 184, 61, 186, 157, 114, 163, 102, 126, 210, 202, 8, 204, 102, 82, 195, 124, 201, 179, 115, 182],
    difficulty := 2, nonce := [0, 0, 0, 0, 0, 0, 0, 0, 0, 0, 0, 0, 0, 0, 0, 0, 0, 0, 0, 0, 0, 0, 0, 0, 0, 0, 0, 0, 0, 0, 0, 0],
    txs := [] }

/-- Precomputed hash of `d1` (checked against `blockHash` by the
acceptance computations that look blocks up under this key). -/
def d1Hash : Bytes := [235, 98, 15, 80, 0, 110, 145, 82, 50, 206, 174, 161, 96, 3, 182, 142, 223, 5, 201, 230, 93, 201, 95, 234, 27, 104, 12, 134, 124, 195, 124, 243]

/-- Concrete test block `d2`. -/
def d2 : BlockData :=
  { height := 2, ts := 62000, prev := [235, 98, 15, 80, 0, 110, 145, 82, 50, 206, 174, 161, 96, 3, 182, 142, 223, 5, 201, 230, 93, 201, 95, 234, 27, 104, 12, 134, 124, 195, 124, 243],
    difficulty := 2, nonce := [0, 0, 0, 0, 0, 0, 0, 0, 0, 0, 0, 0, 0, 0, 0, 0, 0, 0, 0, 0, 0, 0, 0, 0, 0, 0, 0, 0, 0, 0, 0, 0],
    txs := [] }

/-- Precomputed hash of `d2` (checked against `blockHash` by the
acceptance computations that look blocks up under this key). -/
def d2Hash : Bytes := [207, 85, 128, 118, 93, 48, 221, 168, 135, 195, 83, 1, 211, 25, 137, 90, 110, 107, 134, 144, 110, 78, 14, 76, 81, 185, 239, 168, 48, 225, 60, 177]

/-- Concrete test block `d3`. -/
def d3 : BlockData :=
  { height := 3, ts := 63000, prev := [207, 85, 128, 118, 93, 48, 221, 168, 135, 195, 83, 1, 211, 25, 137, 90, 110, 107, 134, 144, 110, 78, 14, 76, 81, 185, 239, 168, 48, 225, 60, 177],
    difficulty := 2, nonce := [0, 0, 0, 0, 0, 0, 0, 0, 0, 0, 0, 0, 0, 0, 0, 0, 0, 0, 0, 0, 0, 0, 0, 0, 0, 0, 0, 0, 0, 0, 0, 0],
    txs := [] }

/-- Precomputed hash of `d3` (checked against `blockHash` by the
acceptance computations that look blocks up under this key). -/
def d3Hash : Bytes := [4, 213, 76, 237, 115, 144, 25, 123, 94, 92, 228, 141, 45, 143, 27, 145, 107, 235, 50, 21, 127, 127, 250, 204, 148, 7, 174, 14, 208, 182, 82, 96]

/-- Concrete test block `d4`. -/
def d4 : BlockData :=
  { height := 4, ts := 64000, prev := [4, 213, 76, 237, 115, 144, 25, 123, 94, 92, 228, 141, 45, 143, 27, 145, 107, 235, 50, 21, 127, 127, 250, 204, 148, 7, 174, 14, 208, 182, 82, 96],
    difficulty := 2, nonce := [0, 0, 0, 0, 0, 0, 0, 0, 0, 0, 0, 0, 0, 0, 0, 0, 0, 0, 0, 0, 0, 0, 0, 0, 0, 0, 0, 0, 0, 0, 0, 0],
    txs := [] }

/-- Precomputed hash of `d4` (checked against `blockHash` by the
acceptance computations that look blocks up under this key). -/
def d4Hash : Bytes := [190, 54, 202, 171, 28, 92, 111, 180, 204, 231, 165, 4, 9, 250, 255, 107, 176, 181, 239, 23, 14, 217, 127, 140, 190, 96, 103, 154, 168, 27, 182, 132]

/-- Concrete test block `d5`. -/
def d5 : BlockData :=
  { height := 5, ts := 65000, prev := [190, 54, 202, 171, 28, 92, 111, 180, 204, 231, 165, 4, 9, 250, 255, 107, 176, 181, 239, 23, 14, 217, 127, 140, 190, 96, 103, 154, 168, 27, 182, 132],
    difficulty := 2, nonce := [0, 0, 0, 0, 0, 0, 0, 0, 0, 0, 0, 0, 0, 0, 0, 0, 0, 0, 0, 0, 0, 0, 0, 0, 0, 0, 0, 0, 0, 0, 0, 0],
    txs := [] }

/-- Precomputed hash of `d5` (checked against `blockHash` by the
acceptance computations that look blocks up under this key). -/
def d5Hash : Bytes := [160, 105, 175, 105, 44, 3, 124, 123, 31, 53, 195, 86, 69, 128, 29, 126, 46, 207, 0, 55, 62, 249, 187, 153, 150, 161, 67, 200, 238, 85, 205, 187]

/-- Concrete test block `d6`. -/
def d6 : BlockData :=
  { height := 6, ts := 66000, prev := [160, 105, 175, 105, 44, 3, 124, 123, 31, 53, 195, 86, 69, 128, 29, 126, 46, 207, 0, 55, 62, 249, 187, 153, 150, 161, 67, 200, 238, 85, 205, 187],
    difficulty := 2, nonce := [0, 0, 0, 0, 0, 0, 0, 0, 0, 0, 0, 0, 0, 0, 0, 0, 0, 0, 0, 0, 0, 0, 0, 0, 0, 0, 0, 0, 0, 0, 0, 0],
    txs := [] }

/-- Precomputed hash of `d6` (checked against `blockHash` by the
acceptance computations that look blocks up under this key). -/
def d6Hash : Bytes := [35, 77, 99, 91, 254, 15, 48, 140, 160, 195, 213, 194, 13, 170, 100, 3, 196, 220, 71, 87, 48, 202, 22, 79, 157, 167, 151, 1, 128, 18, 158, 172]

/-- Concrete test block `d7`. -/
def d7 : BlockData :=
  { height := 7, ts := 67000, prev := [35, 77, 99, 91, 254, 15, 48, 140, 160, 195, 213, 194, 13, 170, 100, 3, 196, 220, 71, 87, 48, 202, 22, 79, 157, 167, 151, 1, 128, 18, 158, 172],
    difficulty := 2, nonce := [0, 0, 0, 0, 0, 0, 0, 0, 0, 0, 0, 0, 0, 0, 0, 0, 0, 0, 0, 0, 0, 0, 0, 0, 0, 0, 0, 0, 0, 0, 0, 0],
    txs := [] }

/-- Precomputed hash of `d7` (checked against `blockHash` by the
acceptance computations that look blocks up under this key). -/
def d7Hash : Bytes := [58, 36, 1, 66, 44, 143, 90, 233, 87, 9, 143, 47, 213, 195, 6, 241, 235, 19, 167, 165, 3, 128, 183, 10, 126, 210, 194, 166, 144, 162, 219, 233]

/-- Concrete test block `d8`. -/
def d8 : BlockData :=
  { height := 8, ts := 68000, prev := [58, 36, 1, 66, 44, 143, 90, 233, 87, 9, 143, 47, 213, 195, 6, 241, 235, 19, 167, 165, 3, 128, 183, 10, 126, 210, 194, 166, 144, 162, 219, 233],
    difficulty := 2, nonce := [0, 0, 0, 0, 0, 0, 0, 0, 0, 0, 0, 0, 0, 0, 0, 0, 0, 0, 0, 0, 0, 0, 0, 0, 0, 0, 0, 0, 0, 0, 0, 0],
    txs := [] }

/-- Precomputed hash of `d8` (checked against `blockHash` by the
acceptance computations that look blocks up under this key). -/
def d8Hash : Bytes := [240, 156, 187, 147, 191, 254, 220, 186, 67, 220, 157, 95, 178, 76, 208, 19, 161, 90, 128, 245, 70, 223, 27, 178, 50, 205, 242, 22, 123, 155, 57, 111]

/-- Concrete test block `d9`. -/
def d9 : BlockData :=
  { height := 9, ts := 69000, prev := [240, 156, 187, 147, 191, 254, 220, 186, 67, 220, 157, 95, 178, 76, 208, 19, 161, 90, 128, 245, 70, 223, 27, 178, 50, 205, 242, 22, 123, 155, 57, 111],
    difficulty := 2, nonce := [0, 0, 0, 0, 0, 0, 0, 0, 0, 0, 0, 0, 0, 0, 0, 0, 0, 0, 0, 0, 0, 0, 0, 0, 0, 0, 0, 0, 0, 0, 0, 0],
    txs := [] }

/-- Precomputed hash of `d9` (checked against `blockHash` by the
acceptance computations that look blocks up under this key). -/
def d9Hash : Bytes := [197, 203, 113, 41, 26, 31, 180, 199, 167, 146, 97, 28, 68, 131, 159, 44, 197, 194, 148, 166, 240, 60, 91, 91, 241, 18, 190, 35, 141, 182, 201, 60]

/-- Concrete test block `d10`. -/
def d10 : BlockData :=
  { height := 10, ts := 110999, prev := [197, 203, 113, 41, 26, 31, 180, 199, 167, 146, 97, 28, 68, 131, 159, 44, 197, 194, 148, 166, 240, 60, 91, 91, 241, 18, 190, 35, 141, 182, 201, 60],
    difficulty := 2, nonce := [0, 0, 0, 0, 0, 0, 0, 0, 0, 0, 0, 0, 0, 0, 0, 0, 0, 0, 0, 0, 0, 0, 0, 0, 0, 0, 0, 0, 0, 0, 0, 9],
    txs := [] }

/-- Precomputed hash of `d10` (checked against `blockHash` by the
acceptance computations that look blocks up under this key). -/
def d10Hash : Bytes := [57, 56, 130, 95, 24, 138, 196, 213, 195, 215, 5, 250, 240, 151, 231, 72, 224, 130, 56, 125, 140, 210, 16, 122, 129, 86, 52, 177, 205, 26, 119, 180]

/-- Concrete test block `d11`. -/
def d11 : BlockData :=
  { height := 11, ts := 110999, prev := [57, 56, 130, 95, 24, 138, 196, 213, 195, 215, 5, 250, 240, 151, 231, 72, 224, 130, 56, 125, 140, 210, 16, 122, 129, 86, 52, 177, 205, 26, 119, 180],
    difficulty := 3, nonce := [0, 0, 0, 0, 0, 0, 0, 0, 0, 0, 0, 0, 0, 0, 0, 0, 0, 0, 0, 0, 0, 0, 0, 0, 0, 0, 0, 0, 0, 0, 0, 0],
    txs := [0, 0, 0, 1, 0, 0, 0, 1, 0, 0, 0, 0, 0, 0, 0, 0, 0, 0, 0, 0, 0, 0, 0, 0, 0, 0, 0, 0, 0, 0, 0, 0, 0, 0, 0, 0, 0, 0, 0, 0, 0, 0, 0, 11, 114, 101, 116, 97, 114, 103, 101, 116, 32, 99, 104, 105, 108, 100, 0, 0, 0, 0, 0, 0, 0, 0, 0, 0, 0, 0, 0, 0, 0, 0, 0, 0, 0, 0, 0, 0, 0, 0, 0, 0, 0, 0, 0, 0, 0, 0, 0, 0, 0, 0, 0, 0, 0, 0, 0, 0, 0, 0, 0, 0, 0, 0, 0, 0, 0, 0, 0, 0, 0, 0, 0, 0, 0, 0, 0, 1, 42, 5, 242, 0, 4, 7, 7, 7, 7, 7, 7, 7, 7, 7, 7, 7, 7, 7, 7, 7, 7, 7, 7, 7, 7, 7, 7, 7, 7, 7, 7, 7, 7, 7, 7, 7, 7, 7, 7, 7, 7, 7, 7, 7, 7, 7, 7, 7, 7, 7, 7, 7, 7, 7, 7, 7, 7, 7, 7, 7, 7, 7, 7, 7, 7, 7, 7, 7, 7] }

/-- Precomputed hash of `d11` (checked against `blockHash` by the
acceptance computations that look blocks up under this key). -/
def d11Hash : Bytes := [244, 137, 119, 134, 177, 13, 103, 47, 161, 248, 76, 117, 105, 85, 84, 36, 248, 202, 43, 245, 55, 115, 231, 244, 209, 31, 244, 45, 247, 11, 225, 178]

/-- Concrete test block `e0`. -/
def e0 : BlockData :=
  { height := 0, ts := 50, prev := [0, 0, 0, 0, 0, 0, 0, 0, 0, 0, 0, 0, 0, 0, 0, 0, 0, 0, 0, 0, 0, 0, 0, 0, 0, 0, 0, 0, 0, 0, 0, 0],
    difficulty := 1, nonce := [0, 0, 0, 0, 0, 0, 0, 0, 0, 0, 0, 0, 0, 0, 0, 0, 0, 0, 0, 0, 0, 0, 0, 0, 0, 0, 0, 0, 0, 0, 0, 0],
    txs := [] }

/-- Precomputed hash of `e0` (checked against `blockHash` by the
acceptance computations that look blocks up under this key). -/
def e0Hash : Bytes := [104, 28, 211, 117, 197, 21, 94, 136, 231, 68, 209, 246, 104, 14, 106, 130, 20, 149, 156, 219, 56, 29, 84, 170, 25, 25, 179, 184, 13, 168, 86, 86]

/-- Concrete test block `e1`. -/
def e1 : BlockData :=
  { height := 1, ts := 100, prev := [104, 28, 211, 117, 197, 21, 94, 136, 231, 68, 209, 246, 104, 14, 106, 130, 20, 149, 156, 219, 56, 29, 84, 170, 25, 25, 179, 184, 13, 168, 86, 86],
    difficulty := 1, nonce := [0, 0, 0, 0, 0, 0, 0, 0, 0, 0, 0, 0, 0, 0, 0, 0, 0, 0, 0, 0, 0, 0, 0, 0, 0, 0, 0, 0, 0, 0, 0, 0],
    txs := [] }

/-- Precomputed hash of `e1` (checked against `blockHash` by the
acceptance computations that look blocks up under this key). -/
def e1Hash : Bytes := [147, 54, 195, 26, 79, 176, 81, 56, 66, 172, 191, 122, 67, 169, 121, 197, 95, 98, 160, 196, 15, 109, 25, 159, 253, 85, 208, 128, 155, 107, 60, 142]

/-- Concrete test block `e2`. -/
def e2 : BlockData :=
  { height := 2, ts := 200, prev := [147, 54, 195, 26, 79, 176, 81, 56, 66, 172, 191, 122, 67, 169, 121, 197, 95, 98, 160, 196, 15, 109, 25, 159, 253, 85, 208, 128, 155, 107, 60, 142],
    difficulty := 1, nonce := [0, 0, 0, 0, 0, 0, 0, 0, 0, 0, 0, 0, 0, 0, 0, 0, 0, 0, 0, 0, 0, 0, 0, 0, 0, 0, 0, 0, 0, 0, 0, 0],
    txs := [] }

/-- Precomputed hash of `e2` (checked against `blockHash` by the
acceptance computations that look blocks up under this key). -/
def e2Hash : Bytes := [203, 39, 169, 113, 131, 62, 160, 140, 188, 99, 146, 210, 45, 8, 7, 164, 222, 115, 202, 200, 110, 108, 71, 219, 176, 94, 58, 8, 196, 96, 135, 131]

/-- Concrete test block `e3`. -/
def e3 : BlockData :=
  { height := 3, ts := 210, prev := [203, 39, 169, 113, 131, 62, 160, 140, 188, 99, 146, 210, 45, 8, 7, 164, 222, 115, 202, 200, 110, 108, 71, 219, 176, 94, 58, 8, 196, 96, 135, 131],
    difficulty := 1, nonce := [0, 0, 0, 0, 0, 0, 0, 0, 0, 0, 0, 0, 0, 0, 0, 0, 0, 0, 0, 0, 0, 0, 0, 0, 0, 0, 0, 0, 0, 0, 0, 0],
    txs := [] }

/-- Precomputed hash of `e3` (checked against `blockHash` by the
acceptance computations that look blocks up under this key). -/
def e3Hash : Bytes := [92, 84, 55, 98, 77, 73, 100, 114, 120, 158, 33, 80, 19, 25, 43, 82, 138, 200, 46, 201, 158, 235, 251, 183, 235, 157, 102, 60, 3, 33, 232, 229]

/-- Concrete test block `e4`. -/
def e4 : BlockData :=
  { height := 4, ts := 220, prev := [92, 84, 55, 98, 77, 73, 100, 114, 120, 158, 33, 80, 19, 25, 43, 82, 138, 200, 46, 201, 158, 235, 251, 183, 235, 157, 102, 60, 3, 33, 232, 229],
    difficulty := 1, nonce := [0, 0, 0, 0, 0, 0, 0, 0, 0, 0, 0, 0, 0, 0, 0, 0, 0, 0, 0, 0, 0, 0, 0, 0, 0, 0, 0, 0, 0, 0, 0, 0],
    txs := [] }

/-- Precomputed hash of `e4` (checked against `blockHash` by the
acceptance computations that look blocks up under this key). -/
def e4Hash : Bytes := [37, 96, 12, 186, 44, 248, 47, 191, 111, 118, 86, 216, 244, 22, 44, 99, 1, 39, 243, 112, 110, 22, 95, 6, 243, 209, 196, 251, 99, 139, 62, 218]

/-- Concrete test block `e5`. -/
def e5 : BlockData :=
  { height := 5, ts := 230, prev := [37, 96, 12, 186, 44, 248, 47, 191, 111, 118, 86, 216, 244, 22, 44, 99, 1, 39, 243, 112, 110, 22, 95, 6, 243, 209, 196, 251, 99, 139, 62, 218],
    difficulty := 1, nonce := [0, 0, 0, 0, 0, 0, 0, 0, 0, 0, 0, 0, 0, 0, 0, 0, 0, 0, 0, 0, 0, 0, 0, 0, 0, 0, 0, 0, 0, 0, 0, 0],
    txs := [] }

/-- Precomputed hash of `e5` (checked against `blockHash` by the
acceptance computations that look blocks up under this key). -/
def e5Hash : Bytes := [162, 65, 185, 55, 228, 61, 234, 89, 33, 56, 155, 7, 44, 80, 101, 130, 215, 101, 69, 14, 104, 174, 127, 39, 18, 156, 212, 193, 3, 166, 107, 144]

/-- Concrete test block `e6`. -/
def e6 : BlockData :=
  { height := 6, ts := 240, prev := [162, 65, 185, 55, 228, 61, 234, 89, 33, 56, 155, 7, 44, 80, 101, 130, 215, 101, 69, 14, 104, 174, 127, 39, 18, 156, 212, 193, 3, 166, 107, 144],
    difficulty := 1, nonce := [0, 0, 0, 0, 0, 0, 0, 0, 0, 0, 0, 0, 0, 0, 0, 0, 0, 0, 0, 0, 0, 0, 0, 0, 0, 0, 0, 0, 0, 0, 0, 3],
    txs := [] }

/-- Precomputed hash of `e6` (checked against `blockHash` by the
acceptance computations that look blocks up under this key). -/
def e6Hash : Bytes := [111, 207, 206, 233, 187, 166, 42, 252, 216, 59, 115, 246, 184, 122, 161, 115, 124, 249, 245, 20, 32, 184, 187, 124, 48, 191, 31, 245, 221, 159, 112, 31]

/-- Concrete test block `e7`. -/
def e7 : BlockData :=
  { height := 7, ts := 100, prev := [111, 207, 206, 233, 187, 166, 42, 252, 216, 59, 115, 246, 184, 122, 161, 115, 124, 249, 245, 20, 32, 184, 187, 124, 48, 191, 31, 245, 221, 159, 112, 31],
    difficulty := 1, nonce := [0, 0, 0, 0, 0, 0, 0, 0, 0, 0, 0, 0, 0, 0, 0, 0, 0, 0, 0, 0, 0, 0, 0, 0, 0, 0, 0, 0, 0, 0, 0, 0],
    txs := [0, 0, 0, 1, 0, 0, 0, 1, 0, 0, 0, 0, 0, 0, 0, 0, 0, 0, 0, 0, 0, 0, 0, 0, 0, 0, 0, 0, 0, 0, 0, 0, 0, 0, 0, 0, 0, 0, 0, 0, 0, 0, 0, 7, 109, 116, 112, 32, 99, 104, 105, 108, 100, 0, 0, 0, 0, 0, 0, 0, 0, 0, 0, 0, 0, 0, 0, 0, 0, 0, 0, 0, 0, 0, 0, 0, 0, 0, 0, 0, 0, 0, 0, 0, 0, 0, 0, 0, 0, 0, 0, 0, 0, 0, 0, 0, 0, 0, 0, 0, 0, 0, 0, 0, 0, 0, 0, 0, 0, 0, 0, 0, 0, 0, 0, 0, 0, 0, 0, 1, 42, 5, 242, 0, 4, 7, 7, 7, 7, 7, 7, 7, 7, 7, 7, 7, 7, 7, 7, 7, 7, 7, 7, 7, 7, 7, 7, 7, 7, 7, 7, 7, 7, 7, 7, 7, 7, 7, 7, 7, 7, 7, 7, 7, 7, 7, 7, 7, 7, 7, 7, 7, 7, 7, 7, 7, 7, 7, 7, 7, 7, 7, 7, 7, 7, 7, 7, 7, 7] }

/-- Precomputed hash of `e7` (checked against `blockHash` by the
acceptance computations that look blocks up under this key). -/
def e7Hash : Bytes := [117, 181, 188, 123, 155, 237, 26, 56, 172, 173, 72, 207, 4, 86, 192, 51, 212, 238, 14, 93, 56, 65, 126, 162, 240, 241, 249, 15, 40, 3, 159, 80]

/-- Chain store of the genesis-only witness state. -/
def storeA : StoreMap := [(gBHash, gB)]

/-- Genesis-only node state: fresh node, tip at genesis. -/
def stA : NodeState :=
  { blocks := storeA, nexts := [], tip := gB, utxos := [], pool := [] }

/-- Reorg witness store: genesis plus a stored suffix block. -/
def storeB : StoreMap := [(gBHash, gB), (a1BHash, a1B)]

/-- Reorg witness state: the active chain is gB then a1B. -/
def stB : NodeState :=
  { blocks := storeB, nexts := [(gBHash, a1B)], tip := a1B, utxos := [], pool := [] }

/-- Eleven-block chain store used for the retarget scenario. -/
def storeD : StoreMap :=
  [(d0Hash, d0),
   (d1Hash, d1),
   (d2Hash, d2),
   (d3Hash, d3),
   (d4Hash, d4),
   (d5Hash, d5),
   (d6Hash, d6),
   (d7Hash, d7),
   (d8Hash, d8),
   (d9Hash, d9),
   (d10Hash, d10)]

/-- The eleven stored blocks of the retarget scenario in chain order. -/
def chainD : List BlockData := [d0, d1, d2, d3, d4, d5, d6, d7, d8, d9, d10]

/-- Forward links of the retarget scenario's active chain. -/
def nextsD : List (Bytes × BlockData) :=
  [(d0Hash, d1),
   (d1Hash, d2),
   (d2Hash, d3),
   (d3Hash, d4),
   (d4Hash, d5),
   (d5Hash, d6),
   (d6Hash, d7),
   (d7Hash, d8),
   (d8Hash, d9),
   (d9Hash, d10)]

/-- Node state whose active chain is d0 … d10. -/
def stD : NodeState :=
  { blocks := storeD, nexts := nextsD, tip := d10, utxos := [], pool := [] }

/-- Seven-block chain store used for the MTP scenario. -/
def storeE : StoreMap :=
  [(e0Hash, e0),
   (e1Hash, e1),
   (e2Hash, e2),
   (e3Hash, e3),
   (e4Hash, e4),
   (e5Hash, e5),
   (e6Hash, e6)]

/-- Forward links of the MTP scenario's active chain. -/
def nextsE : List (Bytes × BlockData) :=
  [(e0Hash, e1),
   (e1Hash, e2),
   (e2Hash, e3),
   (e3Hash, e4),
   (e4Hash, e5),
   (e5Hash, e6)]

/-- Node state whose active chain is e0 … e6. -/
def stE : NodeState :=
  { blocks := storeE, nexts := nextsE, tip := e6, utxos := [], pool := [] }

/-- Incoming two-block extension [b1m, b2c] of the genesis-only state. -/
def incA2 : Incoming :=
  { orphans := [(b1mHash, b1m), (b2cHash, b2c)], start := b1m, rest := [b2c] }

/-- Incoming single block with an invalid proof of work. -/
def incCe : Incoming :=
  { orphans := [(b1uHash, b1u)], start := b1u, rest := [] }

/-- Incoming single block with a wrong height (rejected). -/
def incBad : Incoming :=
  { orphans := [(b1badHash, b1bad)], start := b1bad, rest := [] }

/-- Incoming reorg branch with cumulative work equal to the displaced
suffix. -/
def incB : Incoming :=
  { orphans := [(r1BHash, r1B)], start := r1B, rest := [] }

/-- Incoming reorg branch with strictly less cumulative work. -/
def incBweak : Incoming :=
  { orphans := [(c1BHash, c1B)], start := c1B, rest := [] }

/-- Incoming retarget child of the d-chain. -/
def incD : Incoming :=
  { orphans := [(d11Hash, d11)], start := d11, rest := [] }

/-- Incoming MTP child of the e-chain. -/
def incE : Incoming :=
  { orphans := [(e7Hash, e7)], start := e7, rest := [] }

/-- Concrete test block `x1C` of the float-divergence reorg scenario: a
stored suffix block declaring difficulty 54 (stored blocks are never
re-validated, so no proof of work is required of it). -/
def x1C : BlockData :=
  { height := 2, ts := 1000, prev := [118, 160, 97, 1, 200, 211, 126, 38, 50, 217, 179, 109, 184, 61, 186, 157, 114, 163, 102, 126, 210, 202, 8, 204, 102, 82, 195, 124, 201, 179, 115, 182],
    difficulty := 54, nonce := [0, 0, 0, 0, 0, 0, 0, 0, 0, 0, 0, 0, 0, 0, 0, 0, 0, 0, 0, 0, 0, 0, 0, 0, 0, 0, 0, 0, 0, 0, 0, 0],
    txs := [] }

/-- Precomputed hash of `x1C`. -/
def x1CHash : Bytes := [12, 32, 140, 34, 27, 141, 3, 219, 158, 196, 153, 24, 240, 206, 221, 245, 240, 79, 166, 198, 37, 61, 227, 10, 127, 212, 235, 107, 11, 71, 177, 73]

/-- Concrete test block `x2C`: the difficulty-1 tail of the stored
suffix. -/
def x2C : BlockData :=
  { height := 3, ts := 1000, prev := [12, 32, 140, 34, 27, 141, 3, 219, 158, 196, 153, 24, 240, 206, 221, 245, 240, 79, 166, 198, 37, 61, 227, 10, 127, 212, 235, 107, 11, 71, 177, 73],
    difficulty := 1, nonce := [0, 0, 0, 0, 0, 0, 0, 0, 0, 0, 0, 0, 0, 0, 0, 0, 0, 0, 0, 0, 0, 0, 0, 0, 0, 0, 0, 0, 0, 0, 0, 0],
    txs := [] }

/-- Precomputed hash of `x2C`. -/
def x2CHash : Bytes := [162, 143, 184, 226, 202, 182, 190, 103, 22, 54, 130, 245, 160, 240, 98, 228, 1, 226, 6, 214, 78, 170, 63, 243, 232, 5, 205, 132, 134, 114, 237, 8]

/-- Concrete test block `yC`: the incoming difficulty-54 orphan of the
float-divergence scenario. -/
def yC : BlockData :=
  { height := 2, ts := 1000, prev := [118, 160, 97, 1, 200, 211, 126, 38, 50, 217, 179, 109, 184, 61, 186, 157, 114, 163, 102, 126, 210, 202, 8, 204, 102, 82, 195, 124, 201, 179, 115, 182],
    difficulty := 54, nonce := [0, 0, 0, 0, 0, 0, 0, 0, 0, 0, 0, 0, 0, 0, 0, 0, 0, 0, 0, 0, 0, 0, 0, 0, 0, 0, 0, 0, 0, 0, 0, 1],
    txs := [] }

/-- Precomputed hash of `yC`. -/
def yCHash : Bytes := [109, 171, 43, 62, 249, 67, 82, 48, 234, 194, 134, 144, 167, 55, 17, 1, 136, 52, 112, 155, 71, 211, 15, 136, 204, 10, 241, 159, 25, 167, 58, 68]

/-- Node state of the float-divergence scenario: the active chain is `gB`
then `x1C` (difficulty 54) then `x2C` (difficulty 1), so the displaced
suffix has exact cumulative work 2^54 + 2 but float64-accumulated work
2^54 (adding 2 to 2^54 is a tie at the 4-ulp spacing and rounds to the
even mantissa, i.e. back down). -/
def stC2 : NodeState :=
  { blocks := [(gBHash, gB), (x1CHash, x1C), (x2CHash, x2C)],
    nexts := [(gBHash, x1C), (x1CHash, x2C)],
    tip := x2C, utxos := [], pool := [] }

/-- Incoming orphan map of the float-divergence scenario: one block of
difficulty 54, exact and float work both 2^54. -/
def orphC2 : StoreMap := [(yCHash, yC)]

/-! ## Well-formedness predicates and spec-side definitions used by the
claim statements -/

/-- A well-formed input as the constructor produces it: a 32-byte txid, an
index within `u32`, and a signature slot present and already padded to 72
bytes whose padding is stable under `removeDERPadding` (true of genuine
DER signatures, whose declared length matches, and of any slot not
starting with 48). -/
def wfTxIn (i : TxInData) : Prop :=
  i.txid.length = 32 ∧ i.index < 4294967296 ∧ i.signature.isSome = true ∧
  (i.signature.getD []).length = 72 ∧
  padSuffix (removeDERPadding (i.signature.getD [])) 72 = i.signature.getD []

/-- A well-formed output: a `u64` amount and a 65-byte public key. -/
def wfTxOut (o : TxOutData) : Prop :=
  o.amount < 18446744073709551616 ∧ o.publicKey.length = 65

/-- A well-formed transaction: `u32` record counts, all inputs and outputs
well-formed. -/
def wfTx (tx : TransactionData) : Prop :=
  tx.inputs.length < 4294967296 ∧ tx.outputs.length < 4294967296 ∧
  (∀ i ∈ tx.inputs, wfTxIn i) ∧ (∀ o ∈ tx.outputs, wfTxOut o)

/-- Decidable equality for `Except` results, used by concrete witnesses. -/
instance {ε α : Type} [DecidableEq ε] [DecidableEq α] : DecidableEq (Except ε α) :=
  fun x y =>
    match x, y with
    | .ok a, .ok b =>
        if h : a = b then isTrue (by rw [h])
        else isFalse (fun hc => by cases hc; exact h rfl)
    | .error a, .error b =>
        if h : a = b then isTrue (by rw [h])
        else isFalse (fun hc => by cases hc; exact h rfl)
    | .ok _, .error _ => isFalse (fun hc => by cases hc)
    | .error _, .ok _ => isFalse (fun hc => by cases hc)

/-- Well-formedness of inputs is decidable. -/
instance (i : TxInData) : Decidable (wfTxIn i) := by
  unfold wfTxIn
  infer_instance

/-- Well-formedness of outputs is decidable. -/
instance (o : TxOutData) : Decidable (wfTxOut o) := by
  unfold wfTxOut
  infer_instance

/-- Well-formedness of transactions is decidable. -/
instance (tx : TransactionData) : Decidable (wfTx tx) := by
  unfold wfTx
  infer_instance

/-- The 108 bytes a signed input serializes to. -/
def encTxIn (i : TxInData) : Bytes :=
  i.txid ++ be32 (i.index % 4294967296) ++ i.signature.getD []

/-- The retarget rule exactly as the claim words it: at parent heights
divisible by ten, the duration is measured from the parent `P` back to
`ancestor(P, 10)`; below 50000 ms the difficulty rises, capped at 256;
above 200000 ms it falls, floored at 1; otherwise, and at all other
heights, it is the parent's difficulty. -/
def specRequiredDifficulty (m : StoreMap) (p : BlockData) : Nat :=
  if p.height % 10 = 0 then
    (if (p.ts : Int) - ((lastWalk m 10 p).ts : Int) < 50000 then min (p.difficulty + 1) 256
     else if (p.ts : Int) - ((lastWalk m 10 p).ts : Int) > 200000 then max (p.difficulty - 1) 1
     else p.difficulty)
  else p.difficulty

/-- The retarget rule as amended: identical to the claim's wording except
that the ten-step ancestor walk is rooted at the CHILD (the source's
`last(block, 10)`), so it reaches the parent's ninth ancestor. -/
def specRequiredDifficultyFromChild (m : StoreMap) (p b : BlockData) : Nat :=
  if p.height % 10 = 0 then
    (if (p.ts : Int) - ((lastWalk m 10 b).ts : Int) < 50000 then min (p.difficulty + 1) 256
     else if (p.ts : Int) - ((lastWalk m 10 b).ts : Int) > 200000 then max (p.difficulty - 1) 1
     else p.difficulty)
  else p.difficulty

/-- The subsidy schedule as the claim words it:
`subsidy(h) = floor(5·10⁹ / 2^floor(h / 210000))`. -/
def subsidy (h : Nat) : Nat := 5000000000 / 2 ^ (h / 210000)

/-- The parsed coinbase transaction of block `b1m`. -/
def cbW : TransactionData :=
  { inputs := [mkTxIn (List.replicate 32 0) 1
      (some (padSuffix [119, 105, 116, 110, 101, 115, 115, 32, 116, 120, 32, 49] 72))],
    outputs := [{ amount := 5000000000, publicKey := 4 :: List.replicate 64 7 }] }

/-- The MTP bound exactly as the claim words it for a block `b`: the
timestamp of the block's own fifth ancestor (the middle of an 11-block
window including the block). -/
def specMTP (m : StoreMap) (b : BlockData) : Nat :=
  (lastWalk m (medianTimePastWindow / 2) b).ts

/-! ## Generic success-propagation lemmas -/

/-- Success of a bound `Except` computation splits into success of both
stages. -/
theorem isOkE_bind {α β : Type} (e : Except String α) (f : α → Except String β) :
    isOkE (e >>= f) = true ↔ ∃ a, e = .ok a ∧ isOkE (f a) = true := by
  cases e with
  | ok a => simp [Bind.bind, Except.bind, isOkE]
  | error s => simp [Bind.bind, Except.bind, isOkE]

/-- A successful `validateNewBlocks` run locates the parent of the segment
start in the chain store and runs the block loop to success over the
orphans-then-store lookup map. -/
theorem validateNewBlocks_isOk (v : ECVerify) (now : Nat) (store : StoreMap)
    (base : List UTxOutData) (orphans : StoreMap) (start : BlockData)
    (rest : List BlockData) (tipB : BlockData)
    (h : isOkE (validateNewBlocks v now store base orphans start rest tipB) = true) :
    ∃ prevB, lookupKV store start.prev = some prevB ∧
      isOkE (validateBlocksLoop v (orphans ++ store) prevB base (start :: rest)) = true := by
  unfold validateNewBlocks at h
  split at h
  · simp [isOkE] at h
  · split at h
    · simp [isOkE] at h
    · next prevB heq => exact ⟨prevB, heq, h⟩

/-- A successful `processBranch` run validated the segment over some UTXO
base (the live set for an extension, the rebuilt empty snapshot for a
reorg). -/
theorem processBranch_isOk (v : ECVerify) (now : Nat) (st : NodeState) (inc : Incoming)
    (h : isOkE (processBranch v now st inc) = true) :
    ∃ base, isOkE (validateNewBlocks v now st.blocks base inc.orphans
      inc.start inc.rest inc.tipBlock) = true := by
  simp only [processBranch] at h
  split at h
  · simp [isOkE] at h
  · rename_i fork hfork
    split at h
    · refine ⟨st.utxos, ?_⟩
      rcases (isOkE_bind _ _).mp h with ⟨u, hu, _⟩
      simp [hu, isOkE]
    · rcases (isOkE_bind _ _).mp h with ⟨_, hd, h2⟩
      refine ⟨[], ?_⟩
      rcases (isOkE_bind _ _).mp h2 with ⟨u, hu, _⟩
      simp [hu, isOkE]

/-- The components of a passing `isValidNext` check. -/
theorem isValidNext_iff (p b : BlockData) (d mtp : Nat) :
    isValidNext p b d mtp = true ↔
      (b.height = p.height + 1 ∧ mtp ≤ b.ts ∧ b.difficulty = d ∧ isProofValid p = true ∧
       b.txs.length ≤ maxDataBytes ∧ b.prev = blockHash p) := by
  unfold isValidNext
  split_ifs with h1 h2 h3 h4 h5 <;> simp_all

/-- Each successful step of the block loop yields the `isValidNext`
facts for the consecutive pair. -/
theorem validateBlockStep_isValidNext (v : ECVerify) (m : StoreMap)
    (prev : BlockData) (u : List UTxOutData) (block : BlockData)
    (h : isOkE (validateBlockStep v m prev u block) = true) :
    isValidNext prev block
      (getExpectedDifficulty prev ((prev.ts : Int) - ((lastWalk m 10 block).ts : Int)))
      ((lastWalk m (medianTimePastWindow / 2) prev).ts) = true := by
  simp only [validateBlockStep] at h
  split at h
  · simp [isOkE] at h
  · next hvalid => exact not_not.mp hvalid

/-- A successful block loop makes every consecutive pair of the walked
chain (the stored parent followed by the segment) satisfy any property
implied by a successful step. -/
theorem validateBlocksLoop_chain (v : ECVerify) (m : StoreMap)
    (Q : BlockData → BlockData → Prop)
    (hQ : ∀ prev u b, isOkE (validateBlockStep v m prev u b) = true → Q prev b) :
    ∀ (l : List BlockData) (prev : BlockData) (u : List UTxOutData),
      isOkE (validateBlocksLoop v m prev u l) = true → List.Chain' Q (prev :: l)
  | [], prev, u, _ => List.chain'_singleton prev
  | b :: rest, prev, u, h => by
      unfold validateBlocksLoop at h
      rcases (isOkE_bind _ _).mp h with ⟨u1, hstep, hrest⟩
      have hQpb : Q prev b := hQ prev u b (by simp [hstep, isOkE])
      have ih := validateBlocksLoop_chain v m Q hQ rest b u1 hrest
      exact List.chain'_cons.mpr ⟨hQpb, ih⟩

/-- A chain of a property that only constrains the left element makes the
property hold everywhere except possibly the last position. -/
theorem chain'_left_all {α : Type} (P : α → Prop) :
    ∀ (l : List α), List.Chain' (fun x _ => P x) l → ∀ x ∈ l.dropLast, P x
  | [], _, x, hx => by simp at hx
  | [a], _, x, hx => by simp at hx
  | a :: b :: rest, h, x, hx => by
      rcases List.chain'_cons.mp h with ⟨hPa, htail⟩
      rcases List.mem_cons.mp (by simpa using hx) with rfl | hx2
      · exact hPa
      · exact chain'_left_all P (b :: rest) htail x (by simpa using hx2)

/-- Decomposition of the block loop across an append: the prefix runs to
some intermediate UTXO state and the suffix continues from the last block
of the prefix. -/
theorem validateBlocksLoop_decompose (v : ECVerify) (m : StoreMap) :
    ∀ (pre : List BlockData) (prev : BlockData) (u : List UTxOutData) (l : List BlockData),
      isOkE (validateBlocksLoop v m prev u (pre ++ l)) = true →
      ∃ u1, validateBlocksLoop v m prev u pre = .ok u1 ∧
        isOkE (validateBlocksLoop v m (pre.getLastD prev) u1 l) = true
  | [], prev, u, l, h => ⟨u, rfl, h⟩
  | b :: pre', prev, u, l, h => by
      rw [List.cons_append] at h
      unfold validateBlocksLoop at h
      rcases (isOkE_bind _ _).mp h with ⟨u1, hstep, hrest⟩
      rcases validateBlocksLoop_decompose v m pre' b u1 l hrest with ⟨u2, hpre, hl⟩
      refine ⟨u2, ?_, ?_⟩
      · unfold validateBlocksLoop
        simp [hstep, Bind.bind, Except.bind, hpre]
      · rw [List.getLastD_cons]
        exact hl

/-! ## C1: proof-of-work over accepted segments -/

/-- Claim C1 (amended): an accepted incoming segment has a valid
proof-of-work on every block EXCEPT the final one (the new tip); each
block's proof is checked while validating its child (`isValidNext` tests
the parent's proof), so the last block's own proof is never examined. -/
theorem claim_C1 (v : ECVerify) (now : Nat) (st : NodeState) (inc : Incoming)
    (hrun : isOkE (processBranch v now st inc) = true) :
    ∀ b ∈ inc.chain.dropLast, isProofValid b = true := by
  rcases processBranch_isOk v now st inc hrun with ⟨base, hval⟩
  rcases validateNewBlocks_isOk v now st.blocks base inc.orphans inc.start inc.rest
    inc.tipBlock hval with ⟨prevB, _, hloop⟩
  have hchain := validateBlocksLoop_chain v (inc.orphans ++ st.blocks)
    (fun p _ => isProofValid p = true)
    (fun prev u b hstep => ((isValidNext_iff prev b _ _).mp
      (validateBlockStep_isValidNext v _ prev u b hstep)).2.2.2.1)
    (inc.start :: inc.rest) prevB base hloop
  have hall := chain'_left_all (fun p => isProofValid p = true) _ hchain
  intro b hb
  exact hall b (by
    have : inc.chain.dropLast ⊆ (prevB :: inc.chain).dropLast := by
      rw [List.dropLast_cons_of_ne_nil (by simp [Incoming.chain])]
      exact fun x hx => List.mem_cons_of_mem prevB hx
    exact this hb)

/-- Claim C1, counterexample: the node accepts `b1u` as its new tip even
though the proof-of-work of `b1u` fails its declared difficulty. -/
theorem claim_C1_counterexample :
    isOkE (processBranch ecFalse 0 stA incCe) = true ∧
    (onNewBlocksModel ecFalse 0 stA incCe).tip = b1u ∧
    lookupKV (onNewBlocksModel ecFalse 0 stA incCe).blocks b1uHash = some b1u ∧
    isProofValid b1u = false := by decide

/-- Claim C1, witness: in the accepted two-block segment `[b1m, b2c]`, the
non-tip block `b1m` has a valid proof. -/
theorem claim_C1_witness : isProofValid b1m = true :=
  claim_C1 ecFalse 0 stA incA2 (by decide) b1m (by decide)

/-! ## C6: failed validation leaves the state untouched -/

/-- Claim C6: when validation of an incoming segment fails at any step,
the handler leaves the chain store, tip, UTXO set and mempool exactly as
they were; the fetched orphans are discarded. -/
theorem claim_C6 (v : ECVerify) (now : Nat) (st : NodeState) (inc : Incoming)
    (hfail : isOkE (processBranch v now st inc) = false) :
    onNewBlocksModel v now st inc = st := by
  unfold onNewBlocksModel
  cases h : processBranch v now st inc with
  | ok st1 => rw [h] at hfail; simp [isOkE] at hfail
  | error e => rfl

/-- Claim C6, witness: the segment `[b1bad]` (wrong height) is rejected
and the genesis-only state is returned unchanged. -/
theorem claim_C6_witness : onNewBlocksModel ecFalse 0 stA incBad = stA :=
  claim_C6 ecFalse 0 stA incBad (by decide)

/-! ## C2: cumulative-work reorg rule -/

/-- Float known-answer test: adding 2 to 2^54 is a tie at the 4-ulp
spacing and rounds to the even mantissa, losing the addend. -/
theorem addF64_tie_to_even :
    addF64 (some 18014398509481984) (some 2) = some 18014398509481984 := by decide

/-- Float known-answer test: adding 1 to 2^53 + 2 is a tie that rounds
up to the even mantissa 2^53 + 4. -/
theorem addF64_tie_up :
    addF64 (some 9007199254740994) (some 1) = some 9007199254740996 := by decide

/-- Folding float additions over a projected list is folding over the
projections. -/
theorem foldWork_map {α : Type} (g : α → Nat) :
    ∀ (l : List α) (s : F64),
      l.foldl (fun a x => addF64 a (pow2F64 (g x))) s =
        (l.map g).foldl (fun a d => addF64 a (pow2F64 d)) s
  | [], _ => rfl
  | x :: l, s => by
      simp only [List.foldl_cons, List.map_cons]
      exact foldWork_map g l _

/-- While the exact accumulated sum stays below 2^53 the float fold is
exact: every partial sum and every term is then exactly representable. -/
theorem foldF64_exact :
    ∀ (ds : List Nat) (s : Nat),
      s + (ds.map (fun d => 2 ^ d)).sum < 9007199254740992 →
      ds.foldl (fun a d => addF64 a (pow2F64 d)) (some s) =
        some (s + (ds.map (fun d => 2 ^ d)).sum)
  | [], s, _ => by simp
  | d :: ds, s, h => by
      simp only [List.map_cons, List.sum_cons] at h ⊢
      have hd : 2 ^ d < 9007199254740992 := by omega
      have hdle : d ≤ 1023 := by
        by_contra hgt
        push_neg at hgt
        have hmono : (2 : Nat) ^ 53 ≤ 2 ^ d := Nat.pow_le_pow_right (by omega) (by omega)
        have hbig : (2 : Nat) ^ 53 = 9007199254740992 := by norm_num
        omega
      simp only [List.foldl_cons]
      have hstep : addF64 (some s) (pow2F64 d) = some (s + 2 ^ d) := by
        unfold pow2F64
        rw [if_pos hdle]
        show roundF64 (s + 2 ^ d) = some (s + 2 ^ d)
        unfold roundF64
        rw [if_pos (by omega)]
      rw [hstep, foldF64_exact ds (s + 2 ^ d) (by omega)]
      congr 1
      omega

/-- Below 2^53 the incoming float work is the exact sum. -/
theorem incomingWork_exact (orphans : StoreMap)
    (h : specIncomingWork orphans < 9007199254740992) :
    incomingWork orphans = some (specIncomingWork orphans) := by
  have hsum : ((orphans.map (fun p => p.2.difficulty)).map (fun d => 2 ^ d)).sum =
      specIncomingWork orphans := by
    unfold specIncomingWork
    rw [List.map_map]
    rfl
  unfold incomingWork
  rw [foldWork_map (fun p => p.2.difficulty) orphans (some 0),
    foldF64_exact _ 0 (by rw [hsum]; omega)]
  rw [Nat.zero_add, hsum]

/-- Below 2^53 the local float work is the exact sum. -/
theorem localWork_exact (st : NodeState) (forkNext : BlockData)
    (h : specLocalWork st forkNext < 9007199254740992) :
    localWork st forkNext = some (specLocalWork st forkNext) := by
  have hsum : (((localSuffix st forkNext).map (fun b => b.difficulty)).map
      (fun d => 2 ^ d)).sum = specLocalWork st forkNext := by
    unfold specLocalWork
    rw [List.map_map]
    rfl
  unfold localWork
  rw [foldWork_map (fun b => b.difficulty) (localSuffix st forkNext) (some 0),
    foldF64_exact _ 0 (by rw [hsum]; omega)]
  rw [Nat.zero_add, hsum]

/-- Claim C2 (amended): for a genuine reorg the acceptance gate compares
the FLOAT64-accumulated `2 ** difficulty` works (the source's `reduce`
with double addition), not the exact sums: an accepted branch always
passes the float gate, a branch failing it is always rejected, and when
the float gate passes, acceptance is exactly segment validity over the
rebuilt snapshot (so float-equal work adopts a valid branch).  Whenever
both exact sums stay below 2^53 — every reachable configuration of
feasibly mined difficulties — the float gate coincides with the claim's
exact comparison `Σ 2^difficulty(incoming) ≥ Σ(local)`; above 2^53 the
two diverge. -/
theorem claim_C2 (v : ECVerify) (now : Nat) (st : NodeState) (inc : Incoming)
    (fork forkNext : BlockData)
    (hfork : lookupKV st.blocks inc.start.prev = some fork)
    (hnext : lookupKV st.nexts (blockHash fork) = some forkNext) :
    (isOkE (processBranch v now st inc) = true →
      geF64 (incomingWork inc.orphans) (localWork st forkNext) = true) ∧
    (geF64 (incomingWork inc.orphans) (localWork st forkNext) = false →
      isOkE (processBranch v now st inc) = false) ∧
    (geF64 (incomingWork inc.orphans) (localWork st forkNext) = true →
      isOkE (processBranch v now st inc) =
        isOkE (validateNewBlocks v now st.blocks [] inc.orphans
          inc.start inc.rest inc.tipBlock)) ∧
    (specIncomingWork inc.orphans < 9007199254740992 →
      specLocalWork st forkNext < 9007199254740992 →
      (geF64 (incomingWork inc.orphans) (localWork st forkNext) = true ↔
        specIncomingWork inc.orphans ≥ specLocalWork st forkNext)) := by
  have hexact : specIncomingWork inc.orphans < 9007199254740992 →
      specLocalWork st forkNext < 9007199254740992 →
      (geF64 (incomingWork inc.orphans) (localWork st forkNext) = true ↔
        specIncomingWork inc.orphans ≥ specLocalWork st forkNext) := by
    intro h1 h2
    rw [incomingWork_exact inc.orphans h1, localWork_exact st forkNext h2]
    simp [geF64]
  have hshape : processBranch v now st inc =
      (validateDifficulty st (some forkNext) inc.orphans >>= fun _ =>
        (validateNewBlocks v now st.blocks [] inc.orphans inc.start inc.rest inc.tipBlock
          >>= fun u => .ok (commitBranch st inc u))) := by
    simp only [processBranch, hfork, hnext]
  by_cases hge : geF64 (incomingWork inc.orphans) (localWork st forkNext) = true
  · have hred : validateDifficulty st (some forkNext) inc.orphans =
        if geF64 (incomingWork inc.orphans) (localWork st forkNext) = true then .ok ()
        else .error "Incoming chain has insufficient cumulative difficulty" := rfl
    have hdiff : validateDifficulty st (some forkNext) inc.orphans = .ok () := by
      rw [hred, if_pos hge]
    refine ⟨fun _ => hge, fun hf => absurd hge (by simp [hf]), fun _ => ?_, hexact⟩
    rw [hshape, hdiff]
    cases hv : validateNewBlocks v now st.blocks [] inc.orphans inc.start inc.rest
      inc.tipBlock with
    | ok u => simp [Bind.bind, Except.bind, isOkE]
    | error e => simp [Bind.bind, Except.bind, isOkE]
  · have hred : validateDifficulty st (some forkNext) inc.orphans =
        if geF64 (incomingWork inc.orphans) (localWork st forkNext) = true then .ok ()
        else .error "Incoming chain has insufficient cumulative difficulty" := rfl
    have hdiff : validateDifficulty st (some forkNext) inc.orphans =
        .error "Incoming chain has insufficient cumulative difficulty" := by
      rw [hred, if_neg hge]
    have hfailed : isOkE (processBranch v now st inc) = false := by
      rw [hshape, hdiff]
      simp [Bind.bind, Except.bind, isOkE]
    exact ⟨fun htrue => by rw [hfailed] at htrue; exact absurd htrue (by simp),
      fun _ => hfailed, fun hgt => absurd hgt hge, hexact⟩

/-- Claim C2, counterexample: a genuine-reorg state where the source's
work gate passes although the incoming branch's exact cumulative
`2^difficulty` is STRICTLY LESS than the displaced suffix's: the suffix
`[x1C, x2C]` has exact work 2^54 + 2, which the float accumulation rounds
back to 2^54 (tie to even), matching the incoming orphan's 2^54, so
`validateDifficulty` succeeds — against the claim's exact-sum rule, which
would reject. -/
theorem claim_C2_counterexample :
    lookupKV stC2.blocks yC.prev = some gB ∧
    lookupKV stC2.nexts (blockHash gB) = some x1C ∧
    validateDifficulty stC2 (some x1C) orphC2 = .ok () ∧
    specIncomingWork orphC2 < specLocalWork stC2 x1C := by decide

/-! ## C4: difficulty retargeting -/

/-- The source's `getExpectedDifficulty`, applied to the duration the
validator computes, is exactly the amended spec rule. -/
theorem getExpectedDifficulty_eq_spec (m : StoreMap) (p b : BlockData) :
    getExpectedDifficulty p ((p.ts : Int) - ((lastWalk m 10 b).ts : Int)) =
      specRequiredDifficultyFromChild m p b := by
  by_cases hp : p.height % 10 = 0 <;>
    simp [getExpectedDifficulty, specRequiredDifficultyFromChild,
      difficultyAdjustmentEveryBlocks, blockGenerationTargetInMills, hp]

/-- Claim C4 (amended): along an accepted segment, every block's declared
difficulty equals the retarget rule's value computed from the duration
`P.timestamp − ancestor(child, 10).timestamp` (the parent's NINTH
ancestor, not its tenth): below 50000 ms gives `min(P.difficulty+1, 256)`,
above 200000 ms gives `max(P.difficulty−1, 1)`, otherwise and at
non-retarget heights the parent's difficulty. -/
theorem claim_C4 (v : ECVerify) (now : Nat) (st : NodeState) (inc : Incoming)
    (hrun : isOkE (processBranch v now st inc) = true)
    (prevB : BlockData) (hprev : lookupKV st.blocks inc.start.prev = some prevB) :
    List.Chain'
      (fun p b => b.difficulty = specRequiredDifficultyFromChild (inc.orphans ++ st.blocks) p b)
      (prevB :: inc.chain) := by
  rcases processBranch_isOk v now st inc hrun with ⟨base, hval⟩
  rcases validateNewBlocks_isOk v now st.blocks base inc.orphans inc.start inc.rest
    inc.tipBlock hval with ⟨prevB2, hprev2, hloop⟩
  rw [hprev] at hprev2
  cases hprev2
  exact validateBlocksLoop_chain v (inc.orphans ++ st.blocks) _
    (fun prev u b hstep => by
      have hd := ((isValidNext_iff prev b _ _).mp
        (validateBlockStep_isValidNext v _ prev u b hstep)).2.2.1
      rw [hd, getExpectedDifficulty_eq_spec])
    (inc.start :: inc.rest) prevB base hloop

/-- Claim C4, counterexample: the node accepts child `d11` whose declared
difficulty (3) differs from the claim's formula, which measures the
duration from the parent's own tenth ancestor and yields 2 here. -/
theorem claim_C4_counterexample :
    isOkE (processBranch ecFalse 0 stD incD) = true ∧
    (onNewBlocksModel ecFalse 0 stD incD).tip = d11 ∧
    d11.difficulty ≠ specRequiredDifficulty (incD.orphans ++ storeD) d10 := by decide

/-- Claim C4, witness: in the accepted segment `[b1m, b2c]` over the
genesis-only store, each declared difficulty matches the amended retarget
rule (retarget at the genesis parent, inheritance at height one). -/
theorem claim_C4_witness :
    List.Chain'
      (fun p b => b.difficulty = specRequiredDifficultyFromChild (incA2.orphans ++ stA.blocks) p b)
      (gB :: incA2.chain) :=
  claim_C4 ecFalse 0 stA incA2 (by decide) gB (by decide)

/-! ## C5: coinbase shape and subsidy bound -/

/-- The source's reward helper computes exactly the claimed subsidy. -/
theorem getCoinbaseRewardAtHeight_eq_subsidy (h : Nat) :
    getCoinbaseRewardAtHeight h = subsidy h := rfl

/-- A successful block step whose transactions parse to `txs` and whose
non-coinbase application yields fee total `fees` has a coinbase of the
required shape, bounded by subsidy plus fees. -/
theorem validateBlockStep_coinbase (v : ECVerify) (m : StoreMap) (prev : BlockData)
    (u : List UTxOutData) (block : BlockData)
    (h : isOkE (validateBlockStep v m prev u block) = true)
    (txs : List TransactionData) (htxs : txDeserializeMany block.txs = .ok txs)
    (u1 : List UTxOutData) (fees : Nat)
    (happ : applyTxs v (blockHash block) u (txs.drop 1) = .ok (u1, fees)) :
    ∃ cb i0 o0, txs.get? 0 = some cb ∧ cb.inputs = [i0] ∧ i0.index = block.height ∧
      cb.outputs = [o0] ∧ o0.amount ≤ getCoinbaseRewardAtHeight block.height + fees := by
  simp only [validateBlockStep] at h
  split at h
  · simp [isOkE] at h
  · rcases (isOkE_bind _ _).mp h with ⟨txs2, htxs2, h2⟩
    rw [htxs] at htxs2
    cases htxs2
    rcases (isOkE_bind _ _).mp h2 with ⟨p, happ2, h3⟩
    rw [happ] at happ2
    cases happ2
    simp only [] at h3
    unfold applyCoinbase at h3
    split at h3
    · simp [isOkE] at h3
    · next cb hcb =>
        split at h3
        · next i0 o0 heqi heqo =>
            split_ifs at h3 with hidx hamt
            · simp [isOkE] at h3
            · simp [isOkE] at h3
            · exact ⟨cb, i0, o0, hcb, heqi, by omega, heqo, by omega⟩
        · simp [isOkE] at h3

/-- Claim C5: every block of a segment accepted by
`validateNewBlocksAndUpdateUTxOuts` carries a coinbase with exactly one
input whose index equals the block height and exactly one output, whose
amount is at most `subsidy(height)` plus the fee total of the block's
non-coinbase transactions as valued in the running UTXO state; a block
violating any of these fails validation. -/
theorem claim_C5 (v : ECVerify) (now : Nat) (store : StoreMap) (base : List UTxOutData)
    (orphans : StoreMap) (start : BlockData) (rest : List BlockData) (tipB : BlockData)
    (hrun : isOkE (validateNewBlocks v now store base orphans start rest tipB) = true)
    (pre : List BlockData) (b : BlockData) (post : List BlockData)
    (hsplit : start :: rest = pre ++ b :: post)
    (prevB : BlockData) (hprev : lookupKV store start.prev = some prevB)
    (u : List UTxOutData)
    (hpre : validateBlocksLoop v (orphans ++ store) prevB base pre = .ok u)
    (txs : List TransactionData) (htxs : txDeserializeMany b.txs = .ok txs)
    (u1 : List UTxOutData) (fees : Nat)
    (happ : applyTxs v (blockHash b) u (txs.drop 1) = .ok (u1, fees)) :
    ∃ cb i0 o0, txs.get? 0 = some cb ∧ cb.inputs = [i0] ∧ i0.index = b.height ∧
      cb.outputs = [o0] ∧ o0.amount ≤ subsidy b.height + fees := by
  rcases validateNewBlocks_isOk v now store base orphans start rest tipB hrun with
    ⟨prevB2, hprev2, hloop⟩
  rw [hprev] at hprev2
  cases hprev2
  rw [hsplit] at hloop
  rcases validateBlocksLoop_decompose v (orphans ++ store) pre prevB base (b :: post)
    hloop with ⟨u2, hpre2, hsuffix⟩
  rw [hpre] at hpre2
  cases hpre2
  unfold validateBlocksLoop at hsuffix
  rcases (isOkE_bind _ _).mp hsuffix with ⟨u3, hstep, _⟩
  rw [← getCoinbaseRewardAtHeight_eq_subsidy]
  exact validateBlockStep_coinbase v (orphans ++ store) (pre.getLastD prevB) u b
    (by rw [hstep]; rfl) txs htxs u1 fees happ

/-- Claim C5, witness: the accepted block `b1m` (fee total 0) has the
required coinbase shape within the subsidy bound. -/
theorem claim_C5_witness :
    ∃ cb i0 o0, [cbW].get? 0 = some cb ∧ cb.inputs = [i0] ∧ i0.index = b1m.height ∧
      cb.outputs = [o0] ∧ o0.amount ≤ subsidy b1m.height + 0 :=
  claim_C5 ecFalse 0 storeA [] incA2.orphans b1m [b2c] incA2.tipBlock (by decide)
    [] b1m [b2c] rfl gB (by decide) [] rfl [cbW] (by rfl) [] 0 rfl

/-! ## C7: median-time-past bound -/

/-- Claim C7 (amended): along an accepted segment, every block's
timestamp is at least (NOT strictly greater than) the timestamp of its
PARENT's fifth ancestor — the source compares `next.ts < mtp(prev)`. -/
theorem claim_C7 (v : ECVerify) (now : Nat) (st : NodeState) (inc : Incoming)
    (hrun : isOkE (processBranch v now st inc) = true)
    (prevB : BlockData) (hprev : lookupKV st.blocks inc.start.prev = some prevB) :
    List.Chain' (fun p b => specMTP (inc.orphans ++ st.blocks) p ≤ b.ts)
      (prevB :: inc.chain) := by
  rcases processBranch_isOk v now st inc hrun with ⟨base, hval⟩
  rcases validateNewBlocks_isOk v now st.blocks base inc.orphans inc.start inc.rest
    inc.tipBlock hval with ⟨prevB2, hprev2, hloop⟩
  rw [hprev] at hprev2
  cases hprev2
  exact validateBlocksLoop_chain v (inc.orphans ++ st.blocks) _
    (fun prev u b hstep =>
      ((isValidNext_iff prev b _ _).mp
        (validateBlockStep_isValidNext v _ prev u b hstep)).2.1)
    (inc.start :: inc.rest) prevB base hloop

/-- Claim C7, counterexample: block `e7` is accepted onto the e-chain with
a timestamp (100) equal to the parent's fifth-ancestor bound and SMALLER
than its own fifth ancestor's timestamp (200), so the claimed strict
`ts > MTP(block)` fails on an accepted block. -/
theorem claim_C7_counterexample :
    isOkE (processBranch ecFalse 0 stE incE) = true ∧
    (onNewBlocksModel ecFalse 0 stE incE).tip = e7 ∧
    ¬ (e7.ts > specMTP (incE.orphans ++ storeE) e7) ∧
    e7.ts = specMTP (incE.orphans ++ storeE) e6 := by decide

/-- Claim C7, witness: the amended bound holds along the accepted segment
`[b1m, b2c]`. -/
theorem claim_C7_witness :
    List.Chain' (fun p b => specMTP (incA2.orphans ++ stA.blocks) p ≤ b.ts)
      (gB :: incA2.chain) :=
  claim_C7 ecFalse 0 stA incA2 (by decide) gB (by decide)

/-- Claim C2, witness: a reorg branch whose cumulative work (float and
exact alike, both far below 2^53) EQUALS the displaced suffix's is
adopted: the fork `gB` has stored successor `a1B` and the incoming branch
`[r1B]` carries the same work 2^2. -/
theorem claim_C2_witness :
    specIncomingWork incB.orphans = specLocalWork stB a1B ∧
    isOkE (processBranch ecFalse 0 stB incB) = true ∧
    (onNewBlocksModel ecFalse 0 stB incB).tip = r1B := by
  have h := claim_C2 ecFalse 0 stB incB gB a1B (by decide) (by decide)
  refine ⟨by decide, ?_, by decide⟩
  rw [h.2.2.1 (by decide)]
  decide

/-- Known-answer test: SHA-256 of the empty string. -/
theorem sha256_empty :
    sha256 [] =
      [227, 176, 196, 66, 152, 252, 28, 20, 154, 251, 244, 200,
       153, 111, 185, 36, 39, 174, 65, 228, 100, 155, 147, 76,
       164, 149, 153, 27, 120, 82, 184, 85] := by decide

/-- Known-answer test: SHA-256 of the ASCII string abc. -/
theorem sha256_abc :
    sha256 [97, 98, 99] =
      [186, 120, 22, 191, 143, 1, 207, 234, 65, 65, 64, 222,
       93, 174, 34, 35, 176, 3, 97, 163, 150, 23, 122, 156,
       180, 16, 255, 97, 242, 0, 21, 173] := by decide


/-! ## Codec round-trip lemmas -/

/-- Reading back a big-endian 64-bit encoding recovers the value mod 2^64. -/
theorem u64At_be64 (n : Nat) (rest : Bytes) :
    u64At (be64 n ++ rest) = some (n % 18446744073709551616) := by
  simp [be64, u64At]
  omega

/-- Reading back a big-endian 32-bit encoding recovers the value mod 2^32. -/
theorem u32At_be32 (n : Nat) (rest : Bytes) :
    u32At (be32 n ++ rest) = some (n % 4294967296) := by
  simp [be32, u32At]
  omega

/-- Padding always produces exactly the requested length. -/
theorem padSuffix_length (bs : Bytes) (n : Nat) : (padSuffix bs n).length = n := by
  unfold padSuffix
  split <;> simp_all <;> omega

/-- Padding a list already at the target length is the identity. -/
theorem padSuffix_of_length (bs : Bytes) (n : Nat) (h : bs.length = n) :
    padSuffix bs n = bs := by
  unfold padSuffix
  rw [if_pos (by omega), ← h, List.take_length]

/-- A byte array whose first byte is not 48 passes `removeDERPadding`
unchanged (this includes the empty array). -/
theorem removeDERPadding_of_head (bs : Bytes) (h : bs.head? ≠ some 48) :
    removeDERPadding bs = bs := by
  match bs with
  | [] => rfl
  | [b0] =>
      have hb : b0 ≠ 48 := by simpa using h
      simp [removeDERPadding, hb]
  | b0 :: b1 :: rest =>
      have hb : b0 ≠ 48 := by simpa using h
      simp [removeDERPadding, hb]

/-- Serializing a well-formed input yields its 108-byte encoding. -/
theorem txInSerialize_enc (i : TxInData) (hwf : wfTxIn i) :
    txInSerialize i = .ok (encTxIn i) := by
  obtain ⟨_, _, hsome, _, _⟩ := hwf
  unfold txInSerialize encTxIn
  cases hs : i.signature with
  | none => rw [hs] at hsome; simp at hsome
  | some s => simp [hs]

/-- The encoding of a well-formed input is 108 bytes. -/
theorem encTxIn_length (i : TxInData) (hwf : wfTxIn i) : (encTxIn i).length = 108 := by
  obtain ⟨h32, _, _, h72, _⟩ := hwf
  simp [encTxIn, be32, h32, h72]

/-- Deserializing the encoding of a well-formed input recovers it. -/
theorem txInDeserialize_enc (i : TxInData) (hwf : wfTxIn i) :
    txInDeserialize (encTxIn i) = .ok i := by
  have hlen : (encTxIn i).length = 108 := encTxIn_length i hwf
  obtain ⟨h32, hidx, hsome, h72, hder⟩ := hwf
  cases hs : i.signature with
  | none => rw [hs] at hsome; simp at hsome
  | some s =>
      have h72s : s.length = 72 := by rw [hs] at h72; simpa using h72
      have hders : padSuffix (removeDERPadding s) 72 = s := by
        rw [hs] at hder; simpa using hder
      have henc : encTxIn i = i.txid ++ (be32 (i.index % 4294967296) ++ s) := by
        simp [encTxIn, hs, List.append_assoc]
      unfold txInDeserialize
      rw [if_neg (by omega)]
      have hdrop32 : (encTxIn i).drop 32 = be32 (i.index % 4294967296) ++ s := by
        rw [henc]; exact List.drop_left' h32
      have htake4 : ((encTxIn i).drop 32).take 4 = be32 (i.index % 4294967296) ++ [] := by
        rw [hdrop32, List.append_nil]; exact List.take_left' rfl
      rw [htake4, u32At_be32]
      have hdrop36 : (encTxIn i).drop 36 = s := by
        have h2 : (encTxIn i).drop 36 = ((encTxIn i).drop 32).drop 4 := by
          rw [List.drop_drop]
        rw [h2, hdrop32]
        exact List.drop_left' rfl
      have htake32 : (encTxIn i).take 32 = i.txid := by
        rw [henc]; exact List.take_left' h32
      rw [hdrop36, htake32]
      have hmm : i.index % 4294967296 % 4294967296 = i.index % 4294967296 := by omega
      cases i with
      | mk txid index sig =>
          simp only at hs h32 hidx
          simp [mkTxIn, hmm, Nat.mod_eq_of_lt hidx, hders, hs]

/-- Deserializing a serialized well-formed output recovers it. -/
theorem txOutDeserialize_ser (o : TxOutData) (hwf : wfTxOut o) :
    txOutDeserialize (txOutSerialize o) = .ok o := by
  obtain ⟨hamt, hkey⟩ := hwf
  unfold txOutDeserialize txOutSerialize
  have htake : (be64 (o.amount % 18446744073709551616) ++ o.publicKey).take 8 =
      be64 (o.amount % 18446744073709551616) ++ [] := by
    rw [List.append_nil]; exact List.take_left' rfl
  rw [htake, u64At_be64]
  have hdropk : (be64 (o.amount % 18446744073709551616) ++ o.publicKey).drop 8 =
      o.publicKey := List.drop_left' rfl
  rw [hdropk]
  have hmm : o.amount % 18446744073709551616 % 18446744073709551616 =
      o.amount % 18446744073709551616 := by omega
  rw [hmm, Nat.mod_eq_of_lt hamt]

/-- A pointwise-successful `mapM` is the successful map. -/
theorem mapM_ok {α β : Type} (f : α → Except String β) (g : α → β) :
    ∀ (l : List α), (∀ a ∈ l, f a = .ok (g a)) → l.mapM f = .ok (l.map g)
  | [], _ => rfl
  | a :: l, h => by
      rw [List.mapM_cons, h a (by simp), mapM_ok f g l (fun x hx => h x (by simp [hx]))]
      rfl

/-- Flattening equal-size encodings multiplies the count by the size. -/
theorem flatten_length_const {α : Type} (size : Nat) (enc : α → Bytes) :
    ∀ (items : List α), (∀ a ∈ items, (enc a).length = size) →
      ((items.map enc).flatten).length = items.length * size
  | [], _ => by simp
  | a :: items, h => by
      simp only [List.map_cons, List.flatten_cons, List.length_append, List.length_cons]
      rw [h a (by simp), flatten_length_const size enc items (fun x hx => h x (by simp [hx]))]
      ring

/-- Parsing fixed-size records off the concatenation of their encodings
recovers the items and leaves the tail untouched. -/
theorem readChunks_of_map {α : Type} (size : Nat) (f : Bytes → Except String α)
    (enc : α → Bytes) :
    ∀ (items : List α) (tail : Bytes),
      (∀ a ∈ items, (enc a).length = size ∧ f (enc a) = .ok a) →
      readChunks size f items.length ((items.map enc).flatten ++ tail) = .ok items
  | [], tail, _ => rfl
  | a :: items, tail, h => by
      have hsz := (h a (by simp)).1
      have hok := (h a (by simp)).2
      simp only [List.map_cons, List.flatten_cons, List.length_cons, List.append_assoc]
      unfold readChunks
      rw [List.take_left' hsz, hok, List.drop_left' hsz,
        readChunks_of_map size f enc items tail (fun x hx => h x (by simp [hx]))]
      rfl

/-- The list `flatMap` is flatten of map. -/
theorem flatMap_eq_flatten_map {α : Type} (f : α → Bytes) (l : List α) :
    l.flatMap f = (l.map f).flatten := by
  induction l with
  | nil => rfl
  | cons a l ih => simp [ih]

/-- Serializing a well-formed transaction yields the count header followed
by the concatenated input and output records. -/
theorem txSerialize_enc (tx : TransactionData) (hwf : wfTx tx) :
    txSerialize tx = .ok (be32 (tx.inputs.length % 4294967296) ++
      (be32 (tx.outputs.length % 4294967296) ++
        ((tx.inputs.map encTxIn).flatten ++ (tx.outputs.map txOutSerialize).flatten))) := by
  obtain ⟨_, _, hins, _⟩ := hwf
  unfold txSerialize
  rw [mapM_ok txInSerialize encTxIn tx.inputs (fun a ha => txInSerialize_enc a (hins a ha))]
  simp [Bind.bind, Except.bind, flatMap_eq_flatten_map, List.append_assoc]

/-- Round trip of a well-formed transaction through the codec. -/
theorem tx_roundtrip (tx : TransactionData) (hwf : wfTx tx) :
    (txSerialize tx).bind txDeserialize = .ok tx := by
  obtain ⟨hic, hoc, hins, houts⟩ := hwf
  rw [txSerialize_enc tx ⟨hic, hoc, hins, houts⟩]
  simp only [Except.bind]
  set insFlat := (tx.inputs.map encTxIn).flatten with hinsFlat
  set outsFlat := (tx.outputs.map txOutSerialize).flatten with houtsFlat
  set bytes := be32 (tx.inputs.length % 4294967296) ++
      (be32 (tx.outputs.length % 4294967296) ++ (insFlat ++ outsFlat)) with hbytes
  have hinsLen : insFlat.length = tx.inputs.length * 108 :=
    flatten_length_const 108 encTxIn tx.inputs (fun a ha => encTxIn_length a (hins a ha))
  have houtsLen : outsFlat.length = tx.outputs.length * 73 :=
    flatten_length_const 73 txOutSerialize tx.outputs
      (fun o ho => by simp [txOutSerialize, be64, (houts o ho).2])
  have htake4 : bytes.take 4 = be32 (tx.inputs.length % 4294967296) ++ [] := by
    rw [hbytes, List.append_nil]; exact List.take_left' rfl
  have hdrop4 : bytes.drop 4 = be32 (tx.outputs.length % 4294967296) ++ (insFlat ++ outsFlat) :=
    List.drop_left' rfl
  have htake44 : (bytes.drop 4).take 4 = be32 (tx.outputs.length % 4294967296) ++ [] := by
    rw [hdrop4, List.append_nil]; exact List.take_left' rfl
  have hdrop8 : bytes.drop 8 = insFlat ++ outsFlat := by
    have : bytes.drop 8 = (bytes.drop 4).drop 4 := by rw [List.drop_drop]
    rw [this, hdrop4]
    exact List.drop_left' rfl
  have hlenBytes : bytes.length = 8 + tx.inputs.length * 108 + tx.outputs.length * 73 := by
    simp [hbytes, be32, hinsLen, houtsLen]
    omega
  have hmmi : tx.inputs.length % 4294967296 % 4294967296 = tx.inputs.length := by omega
  have hmmo : tx.outputs.length % 4294967296 % 4294967296 = tx.outputs.length := by omega
  unfold txDeserialize
  rw [htake4, u32At_be32, htake44, u32At_be32, hmmi, hmmo]
  simp only [Bind.bind, Except.bind]
  rw [if_neg (by omega)]
  have hdropIns : bytes.drop (8 + tx.inputs.length * 108) = outsFlat := by
    have h1 : bytes.drop (8 + tx.inputs.length * 108) = (bytes.drop 8).drop (tx.inputs.length * 108) := by
      rw [List.drop_drop]
    rw [h1, hdrop8, ← hinsLen]
    exact List.drop_left' rfl
  rw [hdrop8, hdropIns]
  have hreadIns : readChunks 108 txInDeserialize tx.inputs.length (insFlat ++ outsFlat) =
      .ok tx.inputs :=
    readChunks_of_map 108 txInDeserialize encTxIn tx.inputs outsFlat
      (fun a ha => ⟨encTxIn_length a (hins a ha), txInDeserialize_enc a (hins a ha)⟩)
  have hreadOuts : readChunks 73 txOutDeserialize tx.outputs.length outsFlat = .ok tx.outputs := by
    have := readChunks_of_map 73 txOutDeserialize txOutSerialize tx.outputs []
      (fun o ho => ⟨by simp [txOutSerialize, be64, (houts o ho).2], txOutDeserialize_ser o (houts o ho)⟩)
    simpa using this
  rw [hreadIns]
  simp only [Bind.bind, Except.bind, hreadOuts]

/-- Round trip of a well-formed block header through the block codec. -/
theorem block_roundtrip (B : BlockData) (hp : B.prev.length = 32) (hn : B.nonce.length = 32)
    (hh : B.height < 18446744073709551616) (ht : B.ts < 18446744073709551616)
    (hd : B.difficulty < 256) :
    blockDeserialize (blockSerialize B) = .ok B := by
  set A := be64 (B.height % 18446744073709551616) with hA
  set T := be64 (B.ts % 18446744073709551616) with hT
  set S := blockSerialize B with hS
  have hser : S = A ++ (T ++ (B.prev ++ ([B.difficulty % 256] ++ (B.nonce ++ B.txs)))) := by
    simp [hS, blockSerialize, hA, hT, List.append_assoc]
  have hAT : (A ++ T).length = 16 := by simp [hA, hT, be64]
  have hlenS : S.length = 81 + B.txs.length := by
    simp [hser, hA, hT, be64, hp, hn]
    omega
  have h1 : S.take 8 = A ++ [] := by
    rw [List.append_nil, hser]; exact List.take_left' (by simp [hA, be64])
  have h2 : S.drop 8 = T ++ (B.prev ++ ([B.difficulty % 256] ++ (B.nonce ++ B.txs))) := by
    rw [hser]; exact List.drop_left' (by simp [hA, be64])
  have h3 : (S.drop 8).take 8 = T ++ [] := by
    rw [List.append_nil, h2]; exact List.take_left' (by simp [hT, be64])
  have h4 : S.drop 16 = B.prev ++ ([B.difficulty % 256] ++ (B.nonce ++ B.txs)) := by
    have : S = (A ++ T) ++ (B.prev ++ ([B.difficulty % 256] ++ (B.nonce ++ B.txs))) := by
      rw [hser, List.append_assoc]
    rw [this]; exact List.drop_left' hAT
  have h5 : (S.drop 16).take 32 = B.prev := by rw [h4]; exact List.take_left' hp
  have h6 : S.getD 48 0 = B.difficulty % 256 := by
    have hre : S = ((A ++ T) ++ B.prev) ++ ([B.difficulty % 256] ++ (B.nonce ++ B.txs)) := by
      rw [hser]; simp [List.append_assoc]
    have hlen48 : ((A ++ T) ++ B.prev).length = 48 := by simp [hA, hT, be64, hp]
    rw [hre, List.getD_append_right _ _ _ _ (by omega)]
    simp [hA, hT, be64, hp]
  have h7 : S.drop 49 = B.nonce ++ B.txs := by
    have hre : S = (((A ++ T) ++ B.prev) ++ [B.difficulty % 256]) ++ (B.nonce ++ B.txs) := by
      rw [hser]; simp [List.append_assoc]
    have hlen49 : (((A ++ T) ++ B.prev) ++ [B.difficulty % 256]).length = 49 := by
      simp [hA, hT, be64, hp]
    rw [hre]; exact List.drop_left' hlen49
  have h8 : (S.drop 49).take 32 = B.nonce := by rw [h7]; exact List.take_left' hn
  have h9 : S.drop 81 = B.txs := by
    have hre : S = ((((A ++ T) ++ B.prev) ++ [B.difficulty % 256]) ++ B.nonce) ++ B.txs := by
      rw [hser]; simp [List.append_assoc]
    have hlen81 : (((((A ++ T) ++ B.prev) ++ [B.difficulty % 256]) ++ B.nonce)).length = 81 := by
      simp [hA, hT, be64, hp, hn]
    rw [hre]; exact List.drop_left' hlen81
  have hmm1 : B.height % 18446744073709551616 % 18446744073709551616 = B.height := by omega
  have hmm2 : B.ts % 18446744073709551616 % 18446744073709551616 = B.ts := by omega
  have hmm3 : B.difficulty % 256 = B.difficulty := by omega
  unfold blockDeserialize
  rw [if_neg (by omega), h1, hA, u64At_be64, h3, hT, u64At_be64, h5, h6, h8, h9,
    hmm1, hmm2, hmm3]

/-! ## C3: codec round trips -/

/-- Claim C3 (amended): a well-formed block survives
serialize-then-deserialize field-for-field with its hash preserved; a
well-formed transaction whose input signature slots are stable under the
DER trim (true of genuine DER signatures and of non-48 slots) survives
the transaction codec; and a data length differing from the declared
`8 + 108·inputs + 73·outputs` is rejected. -/
theorem claim_C3 :
    (∀ B : BlockData, B.prev.length = 32 → B.nonce.length = 32 →
       B.height < 18446744073709551616 → B.ts < 18446744073709551616 → B.difficulty < 256 →
       blockDeserialize (blockSerialize B) = .ok B ∧
       Except.map blockHash (blockDeserialize (blockSerialize B)) = .ok (blockHash B)) ∧
    (∀ tx : TransactionData, wfTx tx → (txSerialize tx).bind txDeserialize = .ok tx) ∧
    (∀ (data : Bytes) (ic oc : Nat), u32At (data.take 4) = some ic →
       u32At ((data.drop 4).take 4) = some oc →
       data.length ≠ 8 + ic * 108 + oc * 73 → isOkE (txDeserialize data) = false) := by
  refine ⟨fun B h1 h2 h3 h4 h5 => ?_, tx_roundtrip, fun data ic oc hi ho hlen => ?_⟩
  · have hrt := block_roundtrip B h1 h2 h3 h4 h5
    exact ⟨hrt, by rw [hrt]; rfl⟩
  · unfold txDeserialize
    rw [hi, ho]
    simp only [Bind.bind, Except.bind]
    rw [if_pos hlen]
    rfl

/-- A transaction whose input signature slot declares a DER length shorter
than its nonzero content: the slot starts 48 0, so the codec trims it
to two bytes and zero-pads on read, losing the third byte. -/
def badSigTx : TransactionData :=
  { inputs := [mkTxIn (List.replicate 32 9) 3 (some [48, 0, 1])],
    outputs := [{ amount := 12345, publicKey := 4 :: List.replicate 64 7 }] }

/-- Claim C3, counterexample: `badSigTx` is well-formed in the claim's
sense (32-byte txid, a signature slot present) yet
`deserialize(serialize(tx))` is not `tx`: the DER trim drops the byte
after the declared length. -/
theorem claim_C3_counterexample :
    (txSerialize badSigTx).bind txDeserialize ≠ .ok badSigTx := by decide

/-- Claim C3, witness: the mined block `b1m` round-trips through the block
codec with its hash preserved; a transaction with a genuine-shape DER
signature round-trips; a 20-byte input declaring zero records is
rejected. -/
theorem claim_C3_witness :
    (blockDeserialize (blockSerialize b1m) = .ok b1m ∧
      Except.map blockHash (blockDeserialize (blockSerialize b1m)) = .ok (blockHash b1m)) ∧
    (txSerialize cbW).bind txDeserialize = .ok cbW ∧
    isOkE (txDeserialize (List.replicate 20 0)) = false :=
  ⟨claim_C3.1 b1m (by decide) (by decide) (by decide) (by decide) (by decide),
   claim_C3.2.1 cbW (by decide),
   claim_C3.2.2 (List.replicate 20 0) 0 0 (by decide) (by decide) (by decide)⟩

/-! ## C8: txid ignores signatures -/

/-- The unsigned input serialization depends only on the txid and index. -/
theorem flatMap_serializeUnsigned (l : List TxInData) :
    l.flatMap txInSerializeUnsigned =
      (l.map (fun i => (i.txid, i.index))).flatMap
        (fun p => p.1 ++ be32 (p.2 % 4294967296)) := by
  induction l with
  | nil => rfl
  | cons a l ih => simp [txInSerializeUnsigned, ih]

/-- Claim C8: two transactions with the same input skeletons (txids and
indices) and the same outputs have the same txid, whatever their
signatures: signatures are not part of the unsigned serialization the id
hashes. -/
theorem claim_C8 (tx1 tx2 : TransactionData)
    (hin : tx1.inputs.map (fun i => (i.txid, i.index)) =
      tx2.inputs.map (fun i => (i.txid, i.index)))
    (hout : tx1.outputs = tx2.outputs) :
    txIdOf tx1 = txIdOf tx2 := by
  unfold txIdOf
  have hlen : tx1.inputs.length = tx2.inputs.length := by
    have := congrArg List.length hin
    simpa using this
  unfold txSerializeUnsigned
  rw [hout, hlen, flatMap_serializeUnsigned tx1.inputs, flatMap_serializeUnsigned tx2.inputs, hin]

/-- A transaction sharing `cbW`'s skeleton but with a different signature
slot. -/
def cbWresigned : TransactionData :=
  { inputs := [mkTxIn (List.replicate 32 0) 1 (some (List.replicate 72 1))],
    outputs := [{ amount := 5000000000, publicKey := 4 :: List.replicate 64 7 }] }

/-- Claim C8, witness: replacing the signature slot of `cbW` changes the
transaction but not its txid. -/
theorem claim_C8_witness : cbW ≠ cbWresigned ∧ txIdOf cbW = txIdOf cbWresigned :=
  ⟨by decide, claim_C8 cbW cbWresigned (by decide) rfl⟩

/-! ## C9: DER trim totality and coinbase passthrough -/

/-- Claim C9: `removeDERPadding` is total: any input whose first byte is
not 48 (including the empty array) passes through unchanged, so a
coinbase input's 72-byte slot carrying a miner message survives
deserialize-then-serialize byte-for-byte; an input starting 48 keeps
exactly its first `2 + bytes[1]` bytes. -/
theorem claim_C9 :
    (∀ bs : Bytes, bs.head? ≠ some 48 → removeDERPadding bs = bs) ∧
    (∀ (b1 : Nat) (rest : Bytes),
      removeDERPadding (48 :: b1 :: rest) = (48 :: b1 :: rest).take (2 + b1)) ∧
    (∀ (height : Nat) (data : Bytes), height < 4294967296 → data.head? ≠ some 48 →
      (txInSerialize (buildCoinbaseTxIn height data)).bind
        (fun bs => (txInDeserialize bs).bind txInSerialize) =
        txInSerialize (buildCoinbaseTxIn height data)) := by
  refine ⟨removeDERPadding_of_head, fun b1 rest => by simp [removeDERPadding],
    fun height data hheight hdata => ?_⟩
  have hpadhead : (padSuffix data 72).head? ≠ some 48 := by
    match data with
    | [] => simp [padSuffix, List.replicate]
    | a :: t =>
        simp only [List.head?] at hdata
        unfold padSuffix
        split
        · have h72 : List.take 72 (a :: t) = a :: List.take 71 t := rfl
          rw [h72]
          simpa using hdata
        · simpa using hdata
  have hwf : wfTxIn (buildCoinbaseTxIn height data) := by
    refine ⟨by simp [buildCoinbaseTxIn, mkTxIn], by simpa [buildCoinbaseTxIn, mkTxIn] using hheight,
      by simp [buildCoinbaseTxIn, mkTxIn], ?_, ?_⟩
    · simp [buildCoinbaseTxIn, mkTxIn, padSuffix_length]
    · have hgd : ((buildCoinbaseTxIn height data).signature).getD [] = padSuffix data 72 := rfl
      rw [hgd, removeDERPadding_of_head _ hpadhead,
        padSuffix_of_length _ _ (padSuffix_length data 72)]
  rw [txInSerialize_enc _ hwf]
  simp only [Except.bind]
  rw [txInDeserialize_enc _ hwf]
  simp only [Except.bind]
  rw [txInSerialize_enc _ hwf]

/-- Claim C9, witness: a non-DER array passes unchanged; `[48, 3, …]`
keeps five bytes; the coinbase slot `[104, 105]` survives the codec
byte-for-byte. -/
theorem claim_C9_witness :
    removeDERPadding [171, 5, 9] = [171, 5, 9] ∧
    removeDERPadding (48 :: 3 :: [1, 2, 3, 4, 5]) = (48 :: 3 :: [1, 2, 3, 4, 5]).take (2 + 3) ∧
    (txInSerialize (buildCoinbaseTxIn 7 [104, 105])).bind
      (fun bs => (txInDeserialize bs).bind txInSerialize) =
      txInSerialize (buildCoinbaseTxIn 7 [104, 105]) :=
  ⟨claim_C9.1 [171, 5, 9] (by decide), claim_C9.2.1 3 [1, 2, 3, 4, 5],
   claim_C9.2.2 7 [104, 105] (by decide) (by decide)⟩

/-! ## C10: ancestor walks clamp at the earliest stored block -/

/-- One walk step with the parent present. -/
theorem lastWalk_succ_of_some (m : StoreMap) (n : Nat) (b p : BlockData)
    (h : lookupKV m b.prev = some p) : lastWalk m (n + 1) b = lastWalk m n p := by
  show (match lookupKV m b.prev with
    | none => b
    | some q => lastWalk m n q) = lastWalk m n p
  rw [h]

/-- One walk step with the parent missing: the walk clamps. -/
theorem lastWalk_succ_of_none (m : StoreMap) (n : Nat) (b : BlockData)
    (h : lookupKV m b.prev = none) : lastWalk m (n + 1) b = b := by
  show (match lookupKV m b.prev with
    | none => b
    | some q => lastWalk m n q) = b
  rw [h]

/-- Claim C10: over a stored chain whose links resolve in the lookup map
and whose root's parent is absent, the shared ancestor walk (`top(n)` on
the miner side, `last(tail, n)` on the validator side) is total and
clamps: from position `i`, walking `n` steps lands at position `i − n`
truncated at the root; hence the validator's MTP for a block at height at
most 5 is the root (genesis) timestamp, and the ten-step retarget walk
from any position at most 10 reaches the root. -/
theorem claim_C10 (m : StoreMap) (chain : List BlockData) (dflt : BlockData)
    (hroot : lookupKV m ((chain.getD 0 dflt).prev) = none)
    (hstep : ∀ i, i < chain.length - 1 →
      lookupKV m ((chain.getD (i + 1) dflt).prev) = some (chain.getD i dflt)) :
    (∀ i, i < chain.length → ∀ n, lastWalk m n (chain.getD i dflt) = chain.getD (i - n) dflt) ∧
    (∀ i, 0 < i → i ≤ 5 → i < chain.length →
      (lastWalk m (medianTimePastWindow / 2) (chain.getD (i - 1) dflt)).ts =
        (chain.getD 0 dflt).ts) ∧
    (∀ i, i ≤ 10 → i < chain.length →
      lastWalk m 10 (chain.getD i dflt) = chain.getD 0 dflt) := by
  have key : ∀ n i, i < chain.length →
      lastWalk m n (chain.getD i dflt) = chain.getD (i - n) dflt := by
    intro n
    induction n with
    | zero => intro i hi; simp [lastWalk]
    | succ k ih =>
        intro i hi
        cases i with
        | zero => rw [lastWalk_succ_of_none m k _ hroot, Nat.zero_sub]
        | succ j =>
            have hj : j < chain.length - 1 := by omega
            rw [lastWalk_succ_of_some m k _ _ (hstep j hj), ih j (by omega)]
            congr 1
            omega
  refine ⟨fun i hi n => key n i hi, fun i hpos hle hi => ?_, fun i hle hi => ?_⟩
  · have h5 : medianTimePastWindow / 2 = 5 := rfl
    rw [h5, key 5 (i - 1) (by omega)]
    congr 2
    omega
  · rw [key 10 i hi]
    congr 1
    omega

/-- Claim C10, witness: on the stored eleven-block d-chain, the ten-step
walk from position 6 clamps at the root, and the validator's MTP for the
block at height 5 (five-step walk from its parent at position 4) is the
root timestamp. -/
theorem claim_C10_witness :
    lastWalk storeD 10 (chainD.getD 6 gB) = chainD.getD 0 gB ∧
    (lastWalk storeD (medianTimePastWindow / 2) (chainD.getD 4 gB)).ts =
      (chainD.getD 0 gB).ts := by
  have h := claim_C10 storeD chainD gB (by decide) (by decide)
  exact ⟨h.2.2 6 (by omega) (by decide), h.2.1 5 (by omega) (by omega) (by decide)⟩

end Blockchain
